import Mathlib

/-!
# cluster-capi-operator: the provider asset import pipeline

A shallow embedding of `hack/import-assets/providers.go` (the resolver
`findWebhookCertSecretName`, the transform loop of `importProviders`, the
loader `loadComponents` and the writer `writeProvider`) together with the
properties its specification states about it. The watch predicates of
`pkg/controllers/watch_predicates.go` follow in the namespace `Controllers`.

Conventions of the embedding:

* a Go `map[string]string` is an association list `StrMap`; reading it is
  `StrMap.get`, `m[k] = v` is `StrMap.set`, `delete(m, k)` is `StrMap.delete`.
  A `nil` map is `none` of `Option StrMap`;
* the annotations of a decoded object are a `RawMap`: a value is a string or a
  value of another type, and `GetAnnotations` returns nothing as soon as one
  value is not a string;
* a Go `[]byte` and a Go `string` are both `String`;
* a Go `error` value is an `Error`; a run-time panic is a `Panic`, and a
  function that may panic returns `Except Panic _`;
* the external collaborators (clusterctl configuration client, GitHub
  repository, YAML serialisers, the file system write, the Unicode lower-case
  mapping of the Go library) are the fields of `Env`;
* the output directory is the `files` component of `World`.
-/

namespace ImportAssets

/-! ## Go maps with string keys and values -/

/-- A Go `map[string]string` as an association list; the first binding of a key
is the one that counts. -/
abbrev StrMap := List (String × String)

/-- The comma-ok read `v, ok := m[k]`: `some v` when `k` is a key, else `none`. -/
def StrMap.get : StrMap → String → Option String
  | [], _ => none
  | (k', v) :: rest, k => if k' = k then some v else StrMap.get rest k

/-- The builtin `delete(m, k)`: every binding of `k` is removed. -/
def StrMap.delete : StrMap → String → StrMap
  | [], _ => []
  | (k', v) :: rest, k =>
    if k' = k then StrMap.delete rest k else (k', v) :: StrMap.delete rest k

/-- The assignment `m[k] = v`: the key is bound to `v`, replacing an older binding. -/
def StrMap.set (m : StrMap) (k v : String) : StrMap :=
  (k, v) :: StrMap.delete m k

/-- The key test `_, ok := m[k]`. -/
def StrMap.has (m : StrMap) (k : String) : Bool :=
  (StrMap.get m k).isSome

/-! ## Errors and panics -/

/-- A Go `error` value: a plain error with its message, or an error wrapped by
`errors.Wrapf(cause, format, args...)`. -/
inductive Error where
  | plain (msg : String)
  | wrapf (cause : Error) (format : String) (args : List String)
  deriving DecidableEq, Repr

deriving instance DecidableEq for Except

/-- A run-time panic of the Go program. -/
inductive Panic where
  | ofError (err : Error)
  | nilDereference
  | indexOutOfRange (index length : Nat)
  deriving DecidableEq, Repr

/-! ## Go `strings` helpers -/

/-- Splitting of a character list at every occurrence of `sep`; `cur` holds the
characters of the piece being read, in reverse. -/
def splitAux (sep : Char) : List Char → List Char → List (List Char)
  | [], cur => [cur.reverse]
  | c :: cs, cur =>
    if c = sep then cur.reverse :: splitAux sep cs [] else splitAux sep cs (c :: cur)

/-- Go `strings.Split(s, sep)` for a one-character separator: the pieces of `s`
between the occurrences of `sep` (one piece more than there are occurrences). -/
def Split (s : String) (sep : Char) : List String :=
  (splitAux sep s.toList []).map String.mk

/-- Go indexing `xs[i]` of a slice, which panics when `i` is out of range. -/
def index {α : Type} (xs : List α) (i : Nat) : Except Panic α :=
  match xs.get? i with
  | some x => .ok x
  | none => .error (.indexOutOfRange i xs.length)

/-- Dereference of a Go pointer, which panics on `nil`. -/
def deref {α : Type} : Option α → Except Panic α
  | some x => .ok x
  | none => .error .nilDereference

/-- A read `v, ok := m[k]` of a map that may be `nil`: a `nil` map has no key. -/
def lookupNil (m : Option StrMap) (k : String) : Option String :=
  match m with
  | none => none
  | some m => StrMap.get m k

/-! ## Decoded objects and their typed views -/

/-- The type `ServiceReference` of the Kubernetes API: the Service a webhook targets. -/
structure ServiceReference where
  Namespace : String
  Name : String
  deriving DecidableEq, Repr

/-- The type `WebhookClientConfig`; `Service` is a pointer and may be `nil`. -/
structure WebhookClientConfig where
  Service : Option ServiceReference
  deriving DecidableEq, Repr

/-- The type `WebhookConversion` of a CRD; `ClientConfig` is a pointer. -/
structure WebhookConversion where
  ClientConfig : Option WebhookClientConfig
  deriving DecidableEq, Repr

/-- The type `CustomResourceConversion`; `Webhook` is a pointer. -/
structure CustomResourceConversion where
  Webhook : Option WebhookConversion
  deriving DecidableEq, Repr

/-- The type `CustomResourceDefinitionSpec`; `Conversion` is a pointer. -/
structure CustomResourceDefinitionSpec where
  Conversion : Option CustomResourceConversion
  deriving DecidableEq, Repr

/-- An entry of the `Webhooks` list of a `MutatingWebhookConfiguration` or a
`ValidatingWebhookConfiguration`; `ClientConfig` is a struct, not a pointer. -/
structure Webhook where
  Name : String
  ClientConfig : WebhookClientConfig
  deriving DecidableEq, Repr

/-- The fields that `scheme.Convert` decodes from the content of an object and
that the resolver reads: `spec.conversion` of a CustomResourceDefinition and
`webhooks` of a webhook configuration. -/
structure TypedFields where
  Conversion : Option CustomResourceConversion
  Webhooks : List Webhook
  deriving DecidableEq, Repr

/-- The result of `scheme.Convert` on the content of an object: the conversion
error, or the decoded fields. -/
inductive Converted where
  | failed (err : Error)
  | decoded (fields : TypedFields)
  deriving DecidableEq, Repr

/-- The value of an annotation in a decoded object: a string, or a value of
another type (a number, a boolean, a list, a map), kept as its text. -/
inductive AnnotationValue where
  | str (s : String)
  | nonString (raw : String)
  deriving DecidableEq, Repr

/-- The field `metadata.annotations` of a decoded object, from key to value. -/
abbrev RawMap := List (String × AnnotationValue)

/-- The helper `NestedStringMap` on the annotations: the map with its values as
strings, or nothing as soon as one value is not a string. -/
def stringValues : RawMap → Option StrMap
  | [] => some []
  | (k, .str v) :: rest =>
    match stringValues rest with
    | some m => some ((k, v) :: m)
    | none => none
  | (_, .nonString _) :: _ => none

/-- A `map[string]string` stored as the annotations of a decoded object. -/
def asRawMap (m : StrMap) : RawMap :=
  m.map (fun kv => (kv.1, AnnotationValue.str kv.2))

/-- A decoded object (`unstructured.Unstructured`): its kind, its metadata (the
annotation values are of any type), the outcome of converting the rest of its
content with the scheme, and that content. -/
structure Unstructured where
  kind : String
  name : String
  nspace : String
  labels : Option StrMap
  annotations : Option RawMap
  converted : Converted
  rawFields : String
  deriving DecidableEq, Repr

/-- The accessor `obj.GetKind()`. -/
def Unstructured.GetKind (obj : Unstructured) : String := obj.kind

/-- The accessor `obj.GetName()`. -/
def Unstructured.GetName (obj : Unstructured) : String := obj.name

/-- The accessor `obj.GetAnnotations()`: `nil` when the object has no
annotations, and also when one of the annotation values is not a string. -/
def Unstructured.GetAnnotations (obj : Unstructured) : Option StrMap :=
  match obj.annotations with
  | none => none
  | some raw => stringValues raw

/-- The setter `obj.SetAnnotations(anns)`: the whole field is replaced by the
given map; a `nil` map removes the field. -/
def Unstructured.SetAnnotations (obj : Unstructured) (anns : Option StrMap) : Unstructured :=
  match anns with
  | none => { obj with annotations := none }
  | some m => { obj with annotations := some (asRawMap m) }

/-- The outcome of `scheme.Convert` on an object: the typed annotations are a
`map[string]string`, so the conversion fails when an annotation value is not a
string; otherwise it is the outcome for the rest of the content. -/
def Unstructured.typed (obj : Unstructured) : Converted :=
  match obj.annotations with
  | none => obj.converted
  | some raw =>
    match stringValues raw with
    | some _ => obj.converted
    | none => .failed (.plain "cannot convert annotation value to string")

/-- The typed `CustomResourceDefinition`, as far as the resolver reads it. -/
structure CustomResourceDefinition where
  Annotations : Option StrMap
  Spec : CustomResourceDefinitionSpec
  deriving DecidableEq, Repr

/-- The typed `MutatingWebhookConfiguration`, as far as the resolver reads it. -/
structure MutatingWebhookConfiguration where
  Annotations : Option StrMap
  Webhooks : List Webhook
  deriving DecidableEq, Repr

/-- The typed `ValidatingWebhookConfiguration`, as far as the resolver reads it. -/
structure ValidatingWebhookConfiguration where
  Annotations : Option StrMap
  Webhooks : List Webhook
  deriving DecidableEq, Repr

/-- The call `scheme.Convert(&obj, crd, nil)`. -/
def convertCRD (obj : Unstructured) : Except Error CustomResourceDefinition :=
  match obj.typed with
  | .failed err => .error err
  | .decoded t => .ok { Annotations := obj.GetAnnotations, Spec := { Conversion := t.Conversion } }

/-- The call `scheme.Convert(&obj, mwc, nil)`. -/
def convertMWC (obj : Unstructured) : Except Error MutatingWebhookConfiguration :=
  match obj.typed with
  | .failed err => .error err
  | .decoded t => .ok { Annotations := obj.GetAnnotations, Webhooks := t.Webhooks }

/-- The call `scheme.Convert(&obj, vwc, nil)`. -/
def convertVWC (obj : Unstructured) : Except Error ValidatingWebhookConfiguration :=
  match obj.typed with
  | .failed err => .error err
  | .decoded t => .ok { Annotations := obj.GetAnnotations, Webhooks := t.Webhooks }

/-! ## The certificate-reference resolver -/

/-- The annotation cert-manager uses to request CA injection. -/
def injectCAFrom : String := "cert-manager.io/inject-ca-from"

/-- The annotation of the OpenShift service CA operator that requests CA injection. -/
def injectCABundle : String := "service.beta.openshift.io/inject-cabundle"

/-- The annotation of the OpenShift service CA operator naming the serving-certificate secret. -/
def servingCertSecretName : String := "service.beta.openshift.io/serving-cert-secret-name"

/-- The expression `crd.Spec.Conversion.Webhook.ClientConfig.Service.Name`. -/
def crdServiceName (crd : CustomResourceDefinition) : Except Panic String := do
  let conversion ← deref crd.Spec.Conversion
  let webhook ← deref conversion.Webhook
  let clientConfig ← deref webhook.ClientConfig
  let service ← deref clientConfig.Service
  pure service.Name

/-- The expression `cfg.Webhooks[0].ClientConfig.Service.Name`. -/
def webhooksServiceName (webhooks : List Webhook) : Except Panic String := do
  let first ← index webhooks 0
  let service ← deref first.ClientConfig.Service
  pure service.Name

/-- The statement
`if sec, ok := x.Annotations[injectCAFrom]; ok { certSecretNames[key] = strings.Split(sec, "/")[1] }`
where `key` is the Service-name expression of the kind. The compiled code
calls `strings.Split` and takes the element of index 1 before it dereferences
the pointers of the key; then the map is assigned. -/
def recordSecret (certSecretNames : StrMap) (annotations : Option StrMap)
    (key : Except Panic String) : Except Panic StrMap :=
  match lookupNil annotations injectCAFrom with
  | some sec => do
    let v ← index (Split sec '/') 1
    let k ← key
    pure (StrMap.set certSecretNames k v)
  | none => pure certSecretNames

/-- The body of the loop of `findWebhookCertSecretName`: the switch on the kind. -/
def findStep (certSecretNames : StrMap) (obj : Unstructured) : Except Panic StrMap :=
  if obj.GetKind = "CustomResourceDefinition" then
    match convertCRD obj with
    | .error err => .error (.ofError err)
    | .ok crd => recordSecret certSecretNames crd.Annotations (crdServiceName crd)
  else if obj.GetKind = "MutatingWebhookConfiguration" then
    match convertMWC obj with
    | .error err => .error (.ofError err)
    | .ok mwc => recordSecret certSecretNames mwc.Annotations (webhooksServiceName mwc.Webhooks)
  else if obj.GetKind = "ValidatingWebhookConfiguration" then
    match convertVWC obj with
    | .error err => .error (.ofError err)
    | .ok vwc => recordSecret certSecretNames vwc.Annotations (webhooksServiceName vwc.Webhooks)
  else
    pure certSecretNames

/-- The loop `for _, obj := range p.components.Objs()` of
`findWebhookCertSecretName`, from the map built so far. -/
def findLoop : StrMap → List Unstructured → Except Panic StrMap
  | certSecretNames, [] => .ok certSecretNames
  | certSecretNames, obj :: rest =>
    match findStep certSecretNames obj with
    | .error p => .error p
    | .ok m => findLoop m rest

/-! ## The object transformer -/

/-- The body of the transform loop of `importProviders`: the switch on the kind,
appending to `finalObjs`. -/
def transformStep (certSecretNames : StrMap) (finalObjs : List Unstructured)
    (obj : Unstructured) : List Unstructured :=
  if obj.GetKind = "CustomResourceDefinition" ∨ obj.GetKind = "MutatingWebhookConfiguration"
      ∨ obj.GetKind = "ValidatingWebhookConfiguration" then
    let anns : StrMap := match obj.GetAnnotations with
      | none => []
      | some a => a
    if StrMap.has anns injectCAFrom then
      finalObjs ++ [obj.SetAnnotations
        (some (StrMap.delete (StrMap.set anns injectCABundle "true") injectCAFrom))]
    else
      finalObjs ++ [obj]
  else if obj.GetKind = "Service" then
    let anns : StrMap := match obj.GetAnnotations with
      | none => []
      | some a => a
    match StrMap.get certSecretNames obj.GetName with
    | some name => finalObjs ++ [obj.SetAnnotations (some (StrMap.set anns servingCertSecretName name))]
    | none => finalObjs ++ [obj]
  else if obj.GetKind = "Certificate" ∨ obj.GetKind = "Issuer" ∨ obj.GetKind = "Namespace" then
    finalObjs
  else if obj.GetKind = "Deployment" then
    finalObjs ++ [obj]
  else
    finalObjs ++ [obj]

/-- The transform loop `for _, obj := range p.components.Objs()` of
`importProviders`, starting from `finalObjs`. -/
def transformLoop (certSecretNames : StrMap) :
    List Unstructured → List Unstructured → List Unstructured
  | finalObjs, [] => finalObjs
  | finalObjs, obj :: rest =>
    transformLoop certSecretNames (transformStep certSecretNames finalObjs obj) rest

/-- The final object sequence of one provider: the transform loop run from the
empty `finalObjs`. -/
def transformObjs (certSecretNames : StrMap) (objs : List Unstructured) : List Unstructured :=
  transformLoop certSecretNames [] objs

/-! ## Go `strings` and `path` helpers of the writer -/

/-- Go `strings.ToLower`: every character is mapped by `unicode.ToLower`, the
lower-case mapping of Unicode, which is the parameter `unicodeToLower`. -/
def ToLower (unicodeToLower : Char → Char) (s : String) : String :=
  String.mk (s.toList.map unicodeToLower)

/-- The scan of `strings.ReplaceAll` for a non-empty `old`: `skip` counts the
characters of a match that are still to be dropped. -/
def replaceAux (old new : List Char) : Nat → List Char → List Char
  | _, [] => []
  | skip + 1, _ :: cs => replaceAux old new skip cs
  | 0, c :: cs =>
    if old.isPrefixOf (c :: cs) then new ++ replaceAux old new (old.length - 1) cs
    else c :: replaceAux old new 0 cs

/-- Go `strings.ReplaceAll(s, old, new)`: the non-overlapping occurrences of
`old` are replaced from left to right; an empty `old` matches before every
character and at the end. -/
def ReplaceAll (s old new : String) : String :=
  if old.toList = [] then
    String.mk (new.toList ++ (s.toList.map (fun c => c :: new.toList)).flatten)
  else
    String.mk (replaceAux old.toList new.toList 0 s.toList)

/-- One element of a path met by `path.Clean`, given the elements kept so far
(last one first): an empty element and `.` are dropped, `..` removes the
element before it (or is kept when the path is not rooted and there is none to
remove), every other element is kept. -/
def cleanStep (rooted : Bool) (kept : List String) (elem : String) : List String :=
  if elem = "" ∨ elem = "." then kept
  else if elem = ".." then
    match kept with
    | [] => if rooted then [] else [".."]
    | last :: before => if last = ".." then ".." :: last :: before else before
  else elem :: kept

/-- Go `path.Clean`: the shortest path equivalent to `p` by lexical processing. -/
def pathClean (p : String) : String :=
  if p = "" then "."
  else
    let rooted : Bool := p.toList.head? = some '/'
    let kept := (Split p '/').foldl (cleanStep rooted) []
    let body := String.intercalate "/" kept.reverse
    if rooted then "/" ++ body
    else if body = "" then "." else body

/-- Go `path.Join(dir, file)` of two elements: empty elements are ignored, the
others are joined by a slash and the result is cleaned. -/
def pathJoin (dir file : String) : String :=
  if dir = "" ∧ file = "" then ""
  else if dir = "" then pathClean file
  else if file = "" then pathClean dir
  else pathClean (dir ++ "/" ++ file)

/-! ## Providers and the external collaborators -/

/-- The string type `clusterctlv1.ProviderType`. -/
abbrev ProviderType := String

/-- The constant `clusterctlv1.CoreProviderType`. -/
def CoreProviderType : ProviderType := "CoreProvider"

/-- The constant `clusterctlv1.InfrastructureProviderType`. -/
def InfrastructureProviderType : ProviderType := "InfrastructureProvider"

/-- The constant `clusterctlv1.BootstrapProviderType`. -/
def BootstrapProviderType : ProviderType := "BootstrapProvider"

/-- The constant `clusterctlv1.ControlPlaneProviderType`. -/
def ControlPlaneProviderType : ProviderType := "ControlPlaneProvider"

/-- The struct `provider`; `components` holds `p.components.Objs()`, and both
`components` and `metadata` are empty until `loadComponents` has run. -/
structure provider where
  name : String
  version : String
  ptype : ProviderType
  components : List Unstructured
  metadata : String
  deriving DecidableEq, Repr

/-- The static table `providers`. -/
def providers : List provider :=
  [ { name := "cluster-api", version := "v0.4.3", ptype := CoreProviderType, components := [], metadata := "" },
    { name := "aws", version := "v0.7.0", ptype := InfrastructureProviderType, components := [], metadata := "" },
    { name := "azure", version := "v0.5.2", ptype := InfrastructureProviderType, components := [], metadata := "" },
    { name := "metal3", version := "v0.5.0", ptype := InfrastructureProviderType, components := [], metadata := "" },
    { name := "gcp", version := "v0.4.0", ptype := InfrastructureProviderType, components := [], metadata := "" },
    { name := "openstack", version := "v0.4.0", ptype := InfrastructureProviderType, components := [], metadata := "" } ]

/-- The provider configuration that `configClient.Providers().Get` returns, with
the label that `ManifestLabel()` computes for it. -/
structure ProviderConfig where
  name : String
  ptype : ProviderType
  url : String
  manifestLabel : String

/-- The clusterctl configuration client: `Providers().Get(name, ptype)`. -/
structure ConfigClient where
  providersGet : String → ProviderType → Except Error ProviderConfig

/-- The remote provider source (`repository.Repository`): `GetFile(version, path)`
and `ComponentsPath()`. -/
structure Repository where
  getFile : String → String → Except Error String
  componentsPath : String

/-- The struct `repository.ComponentsOptions`, with the fields the loader sets. -/
structure ComponentsOptions where
  TargetNamespace : String
  SkipTemplateProcess : Bool
  Version : String

/-- The struct `repository.ComponentsInput`, with the data the loader passes. -/
structure ComponentsInput where
  Provider : ProviderConfig
  RawYaml : String
  Options : ComponentsOptions

/-- The struct `corev1.ConfigMap`, with the fields the writer sets. -/
structure ConfigMap where
  Name : String
  Namespace : String
  Labels : StrMap
  Data : StrMap
  deriving DecidableEq, Repr

/-- The external collaborators of the pipeline: the clusterctl configuration
client, the GitHub repository client, the component decoder, the two YAML
serialisers, the failure of `os.WriteFile` (`none` when the write succeeds),
the output directory `providersPath`, and the lower-case mapping
`unicode.ToLower` of the Go library. -/
structure Env where
  configclientNew : Except Error ConfigClient
  newGitHubRepository : ProviderConfig → Except Error Repository
  newComponents : ComponentsInput → Except Error (List Unstructured)
  fromUnstructured : List Unstructured → Except Error String
  yamlMarshal : ConfigMap → Except Error String
  writeFileErr : String → String → Option Error
  providersPath : String
  unicodeToLower : Char → Char

/-- The state outside the program: the files of the output directory, from
path to content, and the lines printed on standard output. -/
structure World where
  files : String → Option String
  stdout : List String

/-- The world before the first run: no file, nothing printed. -/
def World.empty : World :=
  { files := fun _ => none, stdout := [] }

/-- The call `os.WriteFile(path, data, 0600)`: on success the file at `path`
holds `data` and every other file is as before; on failure no file changes. -/
def WriteFile (env : Env) (w : World) (path data : String) : World × Option Error :=
  match env.writeFileErr path data with
  | some err => (w, some err)
  | none => ({ w with files := fun q => if q = path then some data else w.files q }, none)

/-- The call `fmt.Println(a, b)`: one line, the operands separated by a blank. -/
def Println (w : World) (a b : String) : World :=
  { w with stdout := w.stdout ++ [a ++ " " ++ b] }

/-! ## The loader, the writer and the driver -/

/-- The method `loadComponents`: on success the provider holds the metadata and
the decoded components; every failure is returned as an error. -/
def provider.loadComponents (env : Env) (p : provider) : Except Error provider :=
  match env.configclientNew with
  | .error err => .error err
  | .ok configClient =>
    match configClient.providersGet p.name p.ptype with
    | .error err => .error err
    | .ok providerConfig =>
      match env.newGitHubRepository providerConfig with
      | .error err => .error err
      | .ok repo =>
        match repo.getFile p.version "metadata.yaml" with
        | .error err => .error err
        | .ok metadata =>
          let options : ComponentsOptions :=
            { TargetNamespace := "openshift-cluster-api"
              SkipTemplateProcess := true
              Version := p.version }
          match repo.getFile options.Version repo.componentsPath with
          | .error err =>
            .error (.wrapf err "failed to read %q from provider's repository %q"
              [repo.componentsPath, providerConfig.manifestLabel])
          | .ok componentsFile =>
            let ci : ComponentsInput :=
              { Provider := providerConfig, RawYaml := componentsFile, Options := options }
            match env.newComponents ci with
            | .error err => .error err
            | .ok components => .ok { p with metadata := metadata, components := components }

/-- The method `writeProvider`: the ConfigMap of the provider is serialised and
written to its file under `providersPath`. -/
def provider.writeProvider (env : Env) (p : provider) (objs : List Unstructured)
    (w : World) : World × Option Error :=
  match env.fromUnstructured objs with
  | .error err => (w, some err)
  | .ok combined =>
    let providerTypeName := ReplaceAll (ToLower env.unicodeToLower p.ptype) "provider" ""
    let fNameBase := providerTypeName ++ "-" ++ p.name
    let cm : ConfigMap :=
      { Name := p.version
        Namespace := "openshift-cluster-api"
        Labels := [("provider-name", p.name), ("provider-type", providerTypeName)]
        Data := [("metadata", p.metadata), ("components", combined)] }
    match env.yamlMarshal cm with
    | .error err => (w, some err)
    | .ok cmYaml =>
      let fName := ToLower env.unicodeToLower (fNameBase ++ ".yaml")
      WriteFile env w (pathJoin env.providersPath fName) cmYaml

/-- The method `findWebhookCertSecretName`: the resolver loop from the empty map. -/
def provider.findWebhookCertSecretName (p : provider) : Except Panic StrMap :=
  findLoop [] p.components

/-- How a run of `importProviders` ends: it returns (`nil` or an error), or it panics. -/
inductive Outcome where
  | returned (err : Option Error)
  | panicked (p : Panic)
  deriving DecidableEq, Repr

/-- The loop `for _, p := range providers` of `importProviders`, over a list of
providers, from a world. -/
def importLoop (env : Env) : World → List provider → World × Outcome
  | w, [] => (w, .returned none)
  | w, p :: rest =>
    match p.loadComponents env with
    | .error err => (w, .returned (some err))
    | .ok p =>
      let w := Println w p.ptype p.name
      match p.findWebhookCertSecretName with
      | .error pn => (w, .panicked pn)
      | .ok certSecretNames =>
        let finalObjs := transformObjs certSecretNames p.components
        match p.writeProvider env finalObjs w with
        | (w, some err) => (w, .returned (some err))
        | (w, none) => importLoop env w rest

/-- The function `importProviders`: the loop over the static table. -/
def importProviders (env : Env) (w : World) : World × Outcome :=
  importLoop env w providers

end ImportAssets

/-! # The watch predicates of the controllers

A shallow embedding of `pkg/controllers/watch_predicates.go`. The names
`clusterOperatorName`, `infrastructureResourceName` and
`externalFeatureGateName` are constants of the package declared in another
file; the functions take them as parameters.
-/

namespace Controllers

open ImportAssets

/-- The metadata of an object (`metav1.ObjectMeta`), as far as it is read. -/
structure ObjectMeta where
  Name : String
  Namespace : String
  deriving DecidableEq, Repr

/-- A value of the interface `runtime.Object`: the `nil` interface, or a pointer
of dynamic type `*configv1.Infrastructure`, `*configv1.FeatureGate` or another
type; the pointer itself may be `nil`. -/
inductive RuntimeObject where
  | nilObject
  | infrastructure (ptr : Option ObjectMeta)
  | featureGate (ptr : Option ObjectMeta)
  | other (typeName : String) (ptr : Option ObjectMeta)
  deriving DecidableEq, Repr

/-- The struct `event.CreateEvent`. -/
structure CreateEvent where
  Object : RuntimeObject
  deriving DecidableEq, Repr

/-- The struct `event.UpdateEvent`. -/
structure UpdateEvent where
  ObjectOld : RuntimeObject
  ObjectNew : RuntimeObject
  deriving DecidableEq, Repr

/-- The struct `event.GenericEvent`. -/
structure GenericEvent where
  Object : RuntimeObject
  deriving DecidableEq, Repr

/-- The struct `event.DeleteEvent`. -/
structure DeleteEvent where
  Object : RuntimeObject
  DeleteStateUnknown : Bool
  deriving DecidableEq, Repr

/-- The struct `predicate.Funcs`: one function per event type; a function
returns a boolean or panics. -/
structure Funcs where
  CreateFunc : CreateEvent → Except Panic Bool
  UpdateFunc : UpdateEvent → Except Panic Bool
  GenericFunc : GenericEvent → Except Panic Bool
  DeleteFunc : DeleteEvent → Except Panic Bool

/-- The struct `reconcile.Request`, a namespaced name. -/
structure Request where
  Namespace : String
  Name : String
  deriving DecidableEq, Repr

/-- The function `toClusterOperator`: one request, for the cluster operator. -/
def toClusterOperator (clusterOperatorName : String) (_obj : RuntimeObject) : List Request :=
  [{ Namespace := "", Name := clusterOperatorName }]

/-- The closure `isInfrastructureCluster`: the type assertion
`infra, ok := obj.(*configv1.Infrastructure)` and then
`ok && infra.GetName() == infrastructureResourceName`; `GetName` is called only
when the assertion holds, and dereferences the pointer. -/
def isInfrastructureCluster (infrastructureResourceName : String) (obj : RuntimeObject) :
    Except Panic Bool :=
  match obj with
  | .infrastructure infra =>
    match deref infra with
    | .error pn => .error pn
    | .ok objectMeta => .ok (decide (objectMeta.Name = infrastructureResourceName))
  | _ => .ok false

/-- The function `infrastructurePredicates`. -/
def infrastructurePredicates (infrastructureResourceName : String) : Funcs :=
  { CreateFunc := fun e => isInfrastructureCluster infrastructureResourceName e.Object
    UpdateFunc := fun e => isInfrastructureCluster infrastructureResourceName e.ObjectNew
    GenericFunc := fun e => isInfrastructureCluster infrastructureResourceName e.Object
    DeleteFunc := fun e => isInfrastructureCluster infrastructureResourceName e.Object }

/-- The closure `isFeatureGateCluster`: the type assertion
`featureGate, ok := obj.(*configv1.FeatureGate)` and then
`ok && featureGate.GetName() == externalFeatureGateName`. -/
def isFeatureGateCluster (externalFeatureGateName : String) (obj : RuntimeObject) :
    Except Panic Bool :=
  match obj with
  | .featureGate featureGate =>
    match deref featureGate with
    | .error pn => .error pn
    | .ok objectMeta => .ok (decide (objectMeta.Name = externalFeatureGateName))
  | _ => .ok false

/-- The function `featureGatePredicates`. -/
def featureGatePredicates (externalFeatureGateName : String) : Funcs :=
  { CreateFunc := fun e => isFeatureGateCluster externalFeatureGateName e.Object
    UpdateFunc := fun e => isFeatureGateCluster externalFeatureGateName e.ObjectNew
    GenericFunc := fun e => isFeatureGateCluster externalFeatureGateName e.Object
    DeleteFunc := fun e => isFeatureGateCluster externalFeatureGateName e.Object }

end Controllers

namespace ImportAssets

/-! ## Vocabulary of the properties -/

/-- The three kinds whose injection annotation is rewritten. -/
def isWebhookKind (obj : Unstructured) : Prop :=
  obj.GetKind = "CustomResourceDefinition" ∨ obj.GetKind = "MutatingWebhookConfiguration"
    ∨ obj.GetKind = "ValidatingWebhookConfiguration"

instance (obj : Unstructured) : Decidable (isWebhookKind obj) := by
  unfold isWebhookKind; infer_instance

/-- The three kinds that are dropped. -/
def isDroppedKind (obj : Unstructured) : Prop :=
  obj.GetKind = "Certificate" ∨ obj.GetKind = "Issuer" ∨ obj.GetKind = "Namespace"

instance (obj : Unstructured) : Decidable (isDroppedKind obj) := by
  unfold isDroppedKind; infer_instance

/-- The annotations of an object as a map, `nil` read as the empty map. -/
def annsOf (obj : Unstructured) : StrMap :=
  match obj.GetAnnotations with
  | none => []
  | some a => a

/-- The spec's "carries the injection annotation": the object has the key
`cert-manager.io/inject-ca-from`. -/
def isAnnotated (obj : Unstructured) : Prop :=
  lookupNil obj.GetAnnotations injectCAFrom ≠ none

instance (obj : Unstructured) : Decidable (isAnnotated obj) := by
  unfold isAnnotated; infer_instance

/-- The Service reference of a CustomResourceDefinition: the one of the client
configuration of its conversion webhook, absent when the conversion, its
webhook, the client configuration or the Service is. -/
def crdService (t : TypedFields) : Option ServiceReference :=
  match t.Conversion with
  | none => none
  | some conversion =>
    match conversion.Webhook with
    | none => none
    | some webhook =>
      match webhook.ClientConfig with
      | none => none
      | some clientConfig => clientConfig.Service

/-- The Service reference of a webhook configuration: the one of the client
configuration of its first webhook entry, absent when the list is empty or the
first entry has none; later entries do not count. -/
def firstWebhookService (t : TypedFields) : Option ServiceReference :=
  match t.Webhooks with
  | [] => none
  | first :: _ => first.ClientConfig.Service

/-- The name of the Service an object targets: for a CustomResourceDefinition
the name in `crdService`, for a webhook configuration the name in
`firstWebhookService`; `none` when that reference is absent, when the object
does not convert, and for every other kind. -/
def targetServiceName (obj : Unstructured) : Option String :=
  match obj.typed with
  | .failed _ => none
  | .decoded t =>
    if obj.GetKind = "CustomResourceDefinition" then
      (crdService t).map (fun service => service.Name)
    else if obj.GetKind = "MutatingWebhookConfiguration"
        ∨ obj.GetKind = "ValidatingWebhookConfiguration" then
      (firstWebhookService t).map (fun service => service.Name)
    else none

/-- A provider of the table with a given component set, as `loadComponents`
leaves it. -/
def loadedProvider (objs : List Unstructured) : provider :=
  { name := "cluster-api", version := "v0.4.3", ptype := CoreProviderType
    components := objs, metadata := "releaseSeries: []" }

/-- The path of the artifact file of a provider: the path `writeProvider`
writes to. -/
def provider.artifactPath (env : Env) (p : provider) : String :=
  pathJoin env.providersPath
    (ToLower env.unicodeToLower
      (ReplaceAll (ToLower env.unicodeToLower p.ptype) "provider" "" ++ "-" ++ p.name ++ ".yaml"))

/-- The identity of an object within a component set: kind, namespace and name. -/
def identity (obj : Unstructured) : String × String × String :=
  (obj.GetKind, obj.nspace, obj.GetName)

/-- The text of an annotation value between its first slash and its second
slash, or the end of the value when there is no second slash. -/
def textAfterFirstSlash (value : String) : String :=
  String.mk (((value.toList.dropWhile (fun c => c != '/')).drop 1).takeWhile (fun c => c != '/'))

/-- A read of the annotations of a decoded object, values of any type. -/
def rawGet : RawMap → String → Option AnnotationValue
  | [], _ => none
  | (k', v) :: rest, k => if k' = k then some v else rawGet rest k

/-- The value an object carries for an annotation key, of whatever type; `none`
when the object does not carry the key. -/
def Unstructured.annotationValue (obj : Unstructured) (k : String) : Option AnnotationValue :=
  match obj.annotations with
  | none => none
  | some raw => rawGet raw k

/-- Every annotation value of the object is a string (an object without
annotations included): `GetAnnotations` returns all the annotations. -/
def annotationsAreStrings (obj : Unstructured) : Prop :=
  ∀ raw, obj.annotations = some raw → stringValues raw ≠ none

instance (obj : Unstructured) : Decidable (annotationsAreStrings obj) := by
  unfold annotationsAreStrings
  cases obj.annotations with
  | none => exact isTrue (fun raw h => by simp at h)
  | some raw =>
    by_cases h : stringValues raw = none
    · exact isFalse (fun hc => hc raw rfl h)
    · exact isTrue (fun raw' h' => by rw [← Option.some.inj h']; exact h)

/-! ## Sample objects -/

/-- A CustomResourceDefinition that requests CA injection from `ns/my-secret`
and whose conversion webhook targets the Service `my-svc`. -/
def sampleCRD : Unstructured :=
  { kind := "CustomResourceDefinition"
    name := "clusters.cluster.x-k8s.io"
    nspace := ""
    labels := none
    annotations := some [("cert-manager.io/inject-ca-from", .str "ns/my-secret")]
    converted := Converted.decoded
      { Conversion := some ⟨some ⟨some ⟨some ⟨"ns", "my-svc"⟩⟩⟩⟩, Webhooks := [] }
    rawFields := "spec: ..." }

/-- The Service `my-svc`, without annotations. -/
def sampleService : Unstructured :=
  { kind := "Service"
    name := "my-svc"
    nspace := "ns"
    labels := none
    annotations := none
    converted := Converted.decoded { Conversion := none, Webhooks := [] }
    rawFields := "spec: ..." }

/-- A Service that already carries a serving-certificate annotation. -/
def annotatedService : Unstructured :=
  { kind := "Service"
    name := "legacy-svc"
    nspace := "ns"
    labels := none
    annotations := some [("service.beta.openshift.io/serving-cert-secret-name", .str "legacy-cert")]
    converted := Converted.decoded { Conversion := none, Webhooks := [] }
    rawFields := "spec: ..." }

/-- A cert-manager Certificate. -/
def sampleCertificate : Unstructured :=
  { kind := "Certificate"
    name := "serving-cert"
    nspace := "ns"
    labels := none
    annotations := none
    converted := Converted.decoded { Conversion := none, Webhooks := [] }
    rawFields := "spec: ..." }

/-- A Deployment with a label and an annotation. -/
def sampleDeployment : Unstructured :=
  { kind := "Deployment"
    name := "controller-manager"
    nspace := "ns"
    labels := some [("control-plane", "controller-manager")]
    annotations := some [("cert-manager.io/inject-ca-from", .str "ns/my-secret")]
    converted := Converted.decoded { Conversion := none, Webhooks := [] }
    rawFields := "spec: ..." }

/-- A CustomResourceDefinition without annotations whose content the scheme
cannot convert. -/
def unconvertibleCRD : Unstructured :=
  { kind := "CustomResourceDefinition"
    name := "machines.cluster.x-k8s.io"
    nspace := ""
    labels := none
    annotations := none
    converted := Converted.failed (Error.plain "unable to convert unstructured object")
    rawFields := "spec: 3" }

/-- A CustomResourceDefinition that requests CA injection but has no conversion. -/
def crdWithoutConversion : Unstructured :=
  { kind := "CustomResourceDefinition"
    name := "machines.cluster.x-k8s.io"
    nspace := ""
    labels := none
    annotations := some [("cert-manager.io/inject-ca-from", .str "ns/my-secret")]
    converted := Converted.decoded { Conversion := none, Webhooks := [] }
    rawFields := "spec: ..." }

/-- A CustomResourceDefinition without annotations and without conversion. -/
def plainCRD : Unstructured :=
  { kind := "CustomResourceDefinition"
    name := "machinesets.cluster.x-k8s.io"
    nspace := ""
    labels := none
    annotations := none
    converted := Converted.decoded { Conversion := none, Webhooks := [] }
    rawFields := "spec: ..." }

/-- A remote repository in which `missing version path` tells the files that
cannot be fetched. -/
def sampleRepository (missing : String → String → Bool) : Repository :=
  { getFile := fun version path =>
      if missing version path then .error (.plain "404 Not Found")
      else .ok ("content of " ++ path ++ " at " ++ version)
    componentsPath := "components.yaml" }

/-- A lower-case mapping that is `unicode.ToLower` on the ASCII characters, on
`É` (U+00C9, to U+00E9) and on the Kelvin sign (U+212A, to `k`). -/
def sampleToLower (c : Char) : Char :=
  if c.toNat = 201 then Char.ofNat 233
  else if c.toNat = 8490 then Char.ofNat 107
  else c.toLower

/-- Collaborators that all succeed, except for the fetch of the files that
`missing` tells. -/
def sampleEnv (missing : String → String → Bool) : Env :=
  { configclientNew := .ok
      { providersGet := fun name ptype =>
          .ok { name := name, ptype := ptype, url := "https://github.com/example/" ++ name
                manifestLabel := "infrastructure-" ++ name } }
    newGitHubRepository := fun _ => .ok (sampleRepository missing)
    newComponents := fun _ => .ok [sampleCRD, sampleService]
    fromUnstructured := fun objs => .ok (String.intercalate "---" (objs.map (fun o => o.name)))
    yamlMarshal := fun cm => .ok (cm.Name ++ ":" ++ toString cm.Data.length)
    writeFileErr := fun _ _ => none
    providersPath := "/repo/assets/providers"
    unicodeToLower := sampleToLower }

/-- The provider `aws` at a version that can be fetched. -/
def awsProvider : provider :=
  { name := "aws", version := "v0.7.0", ptype := InfrastructureProviderType
    components := [], metadata := "" }

/-- The provider `aws` at another version. -/
def awsNextProvider : provider :=
  { name := "aws", version := "v0.8.0", ptype := InfrastructureProviderType
    components := [], metadata := "" }

/-- The provider `azure`. -/
def azureProvider : provider :=
  { name := "azure", version := "v0.5.2", ptype := InfrastructureProviderType
    components := [], metadata := "" }

/-- Every file of version `v0.8.0` is missing. -/
def missingNextVersion (version _path : String) : Bool :=
  version = "v0.8.0"

/-- Every file of version `v0.5.2` is missing. -/
def missingAzureVersion (version _path : String) : Bool :=
  version = "v0.5.2"

/-- The file `metadata.yaml` is missing at every version. -/
def missingMetadata (_version path : String) : Bool :=
  path = "metadata.yaml"

/-- The components file is missing at every version. -/
def missingComponents (_version path : String) : Bool :=
  path = "components.yaml"

/-- A second CustomResourceDefinition whose conversion webhook targets the
Service `my-svc`, with another secret. -/
def rivalCRD : Unstructured :=
  { kind := "CustomResourceDefinition"
    name := "machines.cluster.x-k8s.io"
    nspace := ""
    labels := none
    annotations := some [("cert-manager.io/inject-ca-from", .str "ns/other-secret")]
    converted := Converted.decoded
      { Conversion := some ⟨some ⟨some ⟨some ⟨"ns", "my-svc"⟩⟩⟩⟩, Webhooks := [] }
    rawFields := "spec: ..." }

/-- A ValidatingWebhookConfiguration whose annotation value has no slash and
whose first webhook targets the Service `my-svc`. -/
def slashlessWebhook : Unstructured :=
  { kind := "ValidatingWebhookConfiguration"
    name := "validating-webhook-configuration"
    nspace := ""
    labels := none
    annotations := some [("cert-manager.io/inject-ca-from", .str "my-secret")]
    converted := Converted.decoded
      { Conversion := none, Webhooks := [⟨"validation.cluster.x-k8s.io", ⟨some ⟨"ns", "my-svc"⟩⟩⟩] }
    rawFields := "webhooks: ..." }

/-- No file is missing. -/
def nothingMissing (_version _path : String) : Bool :=
  false

/-- A world in which the output directory already holds an older artifact and
an unrelated file. -/
def usedWorld : World :=
  { files := fun q =>
      if q = "/repo/assets/providers/core-cluster-api.yaml" then some "stale"
      else if q = "/repo/assets/providers/README.md" then some "readme"
      else none
    stdout := ["earlier output"] }

/-- A core provider whose name has a `..` path element. -/
def dottedProvider : provider :=
  { name := "a/../b", version := "v1.0.0", ptype := CoreProviderType
    components := [], metadata := "" }

/-- The first provider of the static table. -/
def clusterAPIProvider : provider :=
  { name := "cluster-api", version := "v0.4.3", ptype := CoreProviderType
    components := [], metadata := "" }

/-! ## Lemmas on annotations -/

theorem stringValues_asRawMap (m : StrMap) : stringValues (asRawMap m) = some m := by
  induction m with
  | nil => rfl
  | cons kv rest ih =>
    obtain ⟨k, v⟩ := kv
    have e : asRawMap ((k, v) :: rest) = (k, .str v) :: asRawMap rest := rfl
    rw [e]
    simp only [stringValues, ih]

theorem asRawMap_of_stringValues : ∀ {raw : RawMap} {m : StrMap},
    stringValues raw = some m → asRawMap m = raw := by
  intro raw
  induction raw with
  | nil =>
    intro m h
    simp only [stringValues] at h
    rw [← Option.some.inj h]; rfl
  | cons kv rest ih =>
    intro m h
    obtain ⟨k, v⟩ := kv
    cases v with
    | nonString raw => simp [stringValues] at h
    | str v =>
      simp only [stringValues] at h
      cases hr : stringValues rest with
      | none => rw [hr] at h; simp at h
      | some m' =>
        rw [hr] at h
        rw [← Option.some.inj h]
        show (k, AnnotationValue.str v) :: asRawMap m' = _
        rw [ih hr]

theorem GetAnnotations_SetAnnotations (obj : Unstructured) (m : StrMap) :
    (obj.SetAnnotations (some m)).GetAnnotations = some m :=
  stringValues_asRawMap m

theorem lookupNil_SetAnnotations (obj : Unstructured) (m : StrMap) (k : String) :
    lookupNil (obj.SetAnnotations (some m)).GetAnnotations k = StrMap.get m k := by
  rw [GetAnnotations_SetAnnotations]
  rfl

theorem rawGet_asRawMap (m : StrMap) (k : String) :
    rawGet (asRawMap m) k = (StrMap.get m k).map AnnotationValue.str := by
  induction m with
  | nil => rfl
  | cons kv rest ih =>
    obtain ⟨k', v⟩ := kv
    have e : asRawMap ((k', v) :: rest) = (k', .str v) :: asRawMap rest := rfl
    rw [e]
    by_cases h : k' = k
    · simp [rawGet, StrMap.get, h]
    · simp [rawGet, StrMap.get, h, ih]

theorem annotationValue_SetAnnotations (obj : Unstructured) (m : StrMap) (k : String) :
    (obj.SetAnnotations (some m)).annotationValue k
      = (StrMap.get m k).map AnnotationValue.str :=
  rawGet_asRawMap m k

/-- When every annotation value is a string, the annotations that
`GetAnnotations` returns are all the annotations of the object. -/
theorem annotationValue_of_strings {obj : Unstructured} (h : annotationsAreStrings obj)
    (k : String) :
    obj.annotationValue k = (StrMap.get (annsOf obj) k).map AnnotationValue.str := by
  unfold annotationsAreStrings at h
  unfold Unstructured.annotationValue annsOf Unstructured.GetAnnotations
  cases ha : obj.annotations with
  | none => rfl
  | some raw =>
    simp only
    cases hs : stringValues raw with
    | none => exact absurd hs (h raw ha)
    | some m =>
      simp only
      rw [← rawGet_asRawMap, asRawMap_of_stringValues hs]

/-- The Service `my-svc` with two annotations, one of which has a number as
its value. -/
def numberedService : Unstructured :=
  { kind := "Service"
    name := "my-svc"
    nspace := "ns"
    labels := none
    annotations := some [("prometheus.io/port", .nonString "8443"), ("team", .str "capi")]
    converted := Converted.decoded { Conversion := none, Webhooks := [] }
    rawFields := "spec: ..." }

/-- The Service `my-svc` with one annotation, a string. -/
def labelledService : Unstructured :=
  { kind := "Service"
    name := "my-svc"
    nspace := "ns"
    labels := none
    annotations := some [("team", .str "capi")]
    converted := Converted.decoded { Conversion := none, Webhooks := [] }
    rawFields := "spec: ..." }

/-- An infrastructure provider whose name has a slash and upper-case letters. -/
def regionalProvider : provider :=
  { name := "AWS/eu", version := "v1.0.0", ptype := InfrastructureProviderType
    components := [], metadata := "" }

/-- A core provider whose name starts with the letter `É`. -/
def accentedProvider : provider :=
  { name := "École", version := "v1.0.0", ptype := CoreProviderType
    components := [], metadata := "" }

/-! ## Lemmas on maps -/

theorem StrMap.get_delete_self (m : StrMap) (k : String) :
    StrMap.get (StrMap.delete m k) k = none := by
  induction m with
  | nil => rfl
  | cons kv rest ih =>
    obtain ⟨k', v⟩ := kv
    by_cases h : k' = k
    · simp [StrMap.delete, h, ih]
    · simp [StrMap.delete, StrMap.get, h, ih]

theorem StrMap.get_delete_ne (m : StrMap) {k k' : String} (hne : k' ≠ k) :
    StrMap.get (StrMap.delete m k) k' = StrMap.get m k' := by
  induction m with
  | nil => rfl
  | cons kv rest ih =>
    obtain ⟨k₀, v⟩ := kv
    by_cases h : k₀ = k
    · have h' : ¬ k₀ = k' := fun e => hne (e ▸ h)
      simp only [StrMap.delete, StrMap.get, if_pos h, if_neg h', ih]
    · by_cases h₂ : k₀ = k'
      · simp only [StrMap.delete, StrMap.get, if_neg h, if_pos h₂]
      · simp only [StrMap.delete, StrMap.get, if_neg h, if_neg h₂, ih]

theorem StrMap.get_set_self (m : StrMap) (k v : String) :
    StrMap.get (StrMap.set m k v) k = some v := by
  simp [StrMap.set, StrMap.get]

theorem StrMap.get_set_ne (m : StrMap) (v : String) {k k' : String} (hne : k' ≠ k) :
    StrMap.get (StrMap.set m k v) k' = StrMap.get m k' := by
  have h : ¬ k = k' := fun e => hne e.symm
  simp [StrMap.set, StrMap.get, h, StrMap.get_delete_ne m hne]

/-! ## Lemmas on the transform loop -/

theorem isWebhookKind_not_service {obj : Unstructured} (h : isWebhookKind obj) :
    obj.GetKind ≠ "Service" := by
  rcases h with e | e | e <;> rw [e] <;> decide

theorem isWebhookKind_not_dropped {obj : Unstructured} (h : isWebhookKind obj) :
    ¬ isDroppedKind obj := by
  unfold isDroppedKind
  rcases h with e | e | e <;> rw [e] <;> decide

theorem service_not_dropped {obj : Unstructured} (h : obj.GetKind = "Service") :
    ¬ isDroppedKind obj := by
  unfold isDroppedKind
  rw [h]; decide

theorem service_not_webhookKind {obj : Unstructured} (h : obj.GetKind = "Service") :
    ¬ isWebhookKind obj := by
  unfold isWebhookKind
  rw [h]; decide

theorem transformStep_webhook_annotated (m : StrMap) (acc : List Unstructured)
    {obj : Unstructured} (hk : isWebhookKind obj)
    (ha : StrMap.has (annsOf obj) injectCAFrom = true) :
    transformStep m acc obj = acc ++ [obj.SetAnnotations
      (some (StrMap.delete (StrMap.set (annsOf obj) injectCABundle "true") injectCAFrom))] := by
  unfold isWebhookKind at hk
  unfold annsOf at ha
  simp only [transformStep, annsOf, if_pos hk, ha, if_true]

theorem transformStep_webhook_plain (m : StrMap) (acc : List Unstructured)
    {obj : Unstructured} (hk : isWebhookKind obj)
    (ha : StrMap.has (annsOf obj) injectCAFrom = false) :
    transformStep m acc obj = acc ++ [obj] := by
  unfold isWebhookKind at hk
  unfold annsOf at ha
  simp [transformStep, if_pos hk, ha]

theorem transformStep_service_mapped (m : StrMap) (acc : List Unstructured)
    {obj : Unstructured} (hk : obj.GetKind = "Service") {secret : String}
    (hm : StrMap.get m obj.GetName = some secret) :
    transformStep m acc obj = acc ++ [obj.SetAnnotations
      (some (StrMap.set (annsOf obj) servingCertSecretName secret))] := by
  have h1 := service_not_webhookKind hk
  unfold isWebhookKind at h1
  simp only [transformStep, annsOf, if_neg h1, if_pos hk, hm]

theorem transformStep_service_unmapped (m : StrMap) (acc : List Unstructured)
    {obj : Unstructured} (hk : obj.GetKind = "Service")
    (hm : StrMap.get m obj.GetName = none) :
    transformStep m acc obj = acc ++ [obj] := by
  have h1 := service_not_webhookKind hk
  unfold isWebhookKind at h1
  simp only [transformStep, if_neg h1, if_pos hk, hm]

theorem transformStep_dropped (m : StrMap) (acc : List Unstructured)
    {obj : Unstructured} (hk : isDroppedKind obj) :
    transformStep m acc obj = acc := by
  have h1 : ¬ isWebhookKind obj := fun h => isWebhookKind_not_dropped h hk
  have h2 : ¬ obj.GetKind = "Service" := fun h => service_not_dropped h hk
  unfold isWebhookKind at h1
  unfold isDroppedKind at hk
  simp only [transformStep, if_neg h1, if_neg h2, if_pos hk]

theorem transformStep_other (m : StrMap) (acc : List Unstructured)
    {obj : Unstructured} (h1 : ¬ isWebhookKind obj) (h2 : obj.GetKind ≠ "Service")
    (h3 : ¬ isDroppedKind obj) :
    transformStep m acc obj = acc ++ [obj] := by
  unfold isWebhookKind at h1
  unfold isDroppedKind at h3
  simp only [transformStep, if_neg h1, if_neg h2, if_neg h3, ite_self]

/-- Every step of the transform loop appends at most one object, which depends
on the object and the map only. -/
theorem transformStep_append (m : StrMap) (acc : List Unstructured) (obj : Unstructured) :
    transformStep m acc obj = acc ++ transformStep m [] obj := by
  by_cases h1 : isWebhookKind obj
  · cases ha : StrMap.has (annsOf obj) injectCAFrom
    · rw [transformStep_webhook_plain m acc h1 ha, transformStep_webhook_plain m [] h1 ha]; rfl
    · rw [transformStep_webhook_annotated m acc h1 ha, transformStep_webhook_annotated m [] h1 ha]
      rfl
  · by_cases h2 : obj.GetKind = "Service"
    · cases hm : StrMap.get m obj.GetName with
      | none =>
        rw [transformStep_service_unmapped m acc h2 hm, transformStep_service_unmapped m [] h2 hm]
        rfl
      | some secret =>
        rw [transformStep_service_mapped m acc h2 hm, transformStep_service_mapped m [] h2 hm]
        rfl
    · by_cases h3 : isDroppedKind obj
      · rw [transformStep_dropped m acc h3, transformStep_dropped m [] h3]; simp
      · rw [transformStep_other m acc h1 h2 h3, transformStep_other m [] h1 h2 h3]; rfl

theorem transformLoop_append (m : StrMap) (objs : List Unstructured) :
    ∀ acc, transformLoop m acc objs = acc ++ transformLoop m [] objs := by
  induction objs with
  | nil => intro acc; simp [transformLoop]
  | cons obj rest ih =>
    intro acc
    simp only [transformLoop]
    rw [ih (transformStep m acc obj), ih (transformStep m [] obj), transformStep_append m acc obj,
      List.append_assoc]

theorem transformObjs_cons (m : StrMap) (obj : Unstructured) (rest : List Unstructured) :
    transformObjs m (obj :: rest) = transformStep m [] obj ++ transformObjs m rest := by
  simp only [transformObjs, transformLoop]
  exact transformLoop_append m rest _

theorem transformObjs_append (m : StrMap) (xs ys : List Unstructured) :
    transformObjs m (xs ++ ys) = transformObjs m xs ++ transformObjs m ys := by
  induction xs with
  | nil => simp [transformObjs, transformLoop]
  | cons x rest ih => simp [transformObjs_cons, ih]

theorem transformObjs_split (m : StrMap) (pre post : List Unstructured) (obj : Unstructured) :
    transformObjs m (pre ++ obj :: post)
      = transformObjs m pre ++ (transformStep m [] obj ++ transformObjs m post) := by
  rw [transformObjs_append, transformObjs_cons]

theorem transformStep_kind (m : StrMap) (obj o : Unstructured)
    (h : o ∈ transformStep m [] obj) :
    o.GetKind = obj.GetKind ∧ ¬ isDroppedKind obj := by
  by_cases h1 : isWebhookKind obj
  · cases ha : StrMap.has (annsOf obj) injectCAFrom
    · rw [transformStep_webhook_plain m [] h1 ha] at h
      simp at h
      exact ⟨by rw [h], isWebhookKind_not_dropped h1⟩
    · rw [transformStep_webhook_annotated m [] h1 ha] at h
      simp at h
      exact ⟨by rw [h]; rfl, isWebhookKind_not_dropped h1⟩
  · by_cases h2 : obj.GetKind = "Service"
    · cases hm : StrMap.get m obj.GetName with
      | none =>
        rw [transformStep_service_unmapped m [] h2 hm] at h
        simp at h
        exact ⟨by rw [h], service_not_dropped h2⟩
      | some secret =>
        rw [transformStep_service_mapped m [] h2 hm] at h
        simp at h
        exact ⟨by rw [h]; rfl, service_not_dropped h2⟩
    · by_cases h3 : isDroppedKind obj
      · rw [transformStep_dropped m [] h3] at h
        simp at h
      · rw [transformStep_other m [] h1 h2 h3] at h
        simp at h
        exact ⟨by rw [h], h3⟩

/-! ## The object transformer: kind filtering, rewrites, pass-through -/

/-- C1 (kind filtering): whatever the component set and the CertSecretMap, no
object of the sequence the transform loop produces has kind Certificate, Issuer
or Namespace. -/
theorem kind_filtering (certSecretNames : StrMap) (objs : List Unstructured) :
    ∀ o ∈ transformObjs certSecretNames objs,
      o.GetKind ≠ "Certificate" ∧ o.GetKind ≠ "Issuer" ∧ o.GetKind ≠ "Namespace" := by
  induction objs with
  | nil => intro o h; simp [transformObjs, transformLoop] at h
  | cons obj rest ih =>
    intro o h
    rw [transformObjs_cons, List.mem_append] at h
    rcases h with h | h
    · obtain ⟨hk, hd⟩ := transformStep_kind certSecretNames obj o h
      unfold isDroppedKind at hd
      push_neg at hd
      rw [hk]
      exact hd
    · exact ih o h

/-- Witness of C1: from a Certificate followed by a Service only the Service
comes out, and its kind is none of the dropped ones. -/
theorem kind_filtering_witness :
    sampleService ∈ transformObjs [] [sampleCertificate, sampleService]
      ∧ sampleService.GetKind ≠ "Certificate" ∧ sampleService.GetKind ≠ "Issuer"
      ∧ sampleService.GetKind ≠ "Namespace" :=
  ⟨by decide, kind_filtering [] [sampleCertificate, sampleService] sampleService (by decide)⟩

/-- C3, as the code has it (cert-secret correlation): a Service, anywhere in a
component set, yields exactly one output object at its place. When its name is
a key of the CertSecretMap, the output carries
`service.beta.openshift.io/serving-cert-secret-name` with exactly the mapped
value, agrees with the input on every field other than the annotations, and,
when every annotation value of the input is a string, on every other
annotation; when its name is not a key, the output is the input, so no
annotation is added (and none is removed). -/
theorem cert_secret_correlation (certSecretNames : StrMap) (pre post : List Unstructured)
    (svc : Unstructured) (hk : svc.GetKind = "Service") :
    ∃ out, transformObjs certSecretNames (pre ++ svc :: post)
        = transformObjs certSecretNames pre ++ out :: transformObjs certSecretNames post
      ∧ (∀ secret, StrMap.get certSecretNames svc.GetName = some secret →
          out.annotationValue servingCertSecretName = some (.str secret)
          ∧ lookupNil out.GetAnnotations servingCertSecretName = some secret
          ∧ (annotationsAreStrings svc → ∀ k, k ≠ servingCertSecretName →
              out.annotationValue k = svc.annotationValue k)
          ∧ { out with annotations := svc.annotations } = svc)
      ∧ (StrMap.get certSecretNames svc.GetName = none → out = svc) := by
  cases hm : StrMap.get certSecretNames svc.GetName with
  | none =>
    refine ⟨svc, ?_, fun secret h => by simp at h, fun _ => rfl⟩
    rw [transformObjs_split, transformStep_service_unmapped certSecretNames [] hk hm]; rfl
  | some name =>
    refine ⟨svc.SetAnnotations (some (StrMap.set (annsOf svc) servingCertSecretName name)),
      ?_, ?_, fun h => by simp at h⟩
    · rw [transformObjs_split, transformStep_service_mapped certSecretNames [] hk hm]; rfl
    · intro secret hs
      have e : name = secret := Option.some.inj hs
      subst e
      refine ⟨?_, ?_, ?_, rfl⟩
      · rw [annotationValue_SetAnnotations, StrMap.get_set_self]; rfl
      · rw [lookupNil_SetAnnotations]
        exact StrMap.get_set_self _ _ _
      · intro hstr k hk1
        rw [annotationValue_SetAnnotations, StrMap.get_set_ne _ _ hk1]
        exact (annotationValue_of_strings hstr k).symm

/-- Witness of C3: the Service `my-svc` with a string annotation, under the map
that binds its name. -/
theorem cert_secret_correlation_witness :
    ∃ out, transformObjs [("my-svc", "my-secret")] ([sampleCRD] ++ labelledService :: [])
        = transformObjs [("my-svc", "my-secret")] [sampleCRD]
          ++ out :: transformObjs [("my-svc", "my-secret")] []
      ∧ (∀ secret, StrMap.get [("my-svc", "my-secret")] labelledService.GetName = some secret →
          out.annotationValue servingCertSecretName = some (.str secret)
          ∧ lookupNil out.GetAnnotations servingCertSecretName = some secret
          ∧ (annotationsAreStrings labelledService → ∀ k, k ≠ servingCertSecretName →
              out.annotationValue k = labelledService.annotationValue k)
          ∧ { out with annotations := labelledService.annotations } = labelledService)
      ∧ (StrMap.get [("my-svc", "my-secret")] labelledService.GetName = none →
          out = labelledService) :=
  cert_secret_correlation [("my-svc", "my-secret")] [sampleCRD] [] labelledService (by decide)

/-- Counterexample to C3 as stated. A Service whose name is not a key of the
(empty) CertSecretMap and that already carries
`service.beta.openshift.io/serving-cert-secret-name` comes out with that
annotation: it is not unannotated. And a Service whose name is a key and one of
whose annotation values is a number comes out with the new annotation only:
its annotation `team` is not kept. -/
theorem cert_secret_correlation_counterexample :
    (annotatedService.GetKind = "Service"
      ∧ StrMap.get [] annotatedService.GetName = none
      ∧ transformObjs [] [annotatedService] = [annotatedService]
      ∧ annotatedService.annotationValue servingCertSecretName = some (.str "legacy-cert"))
    ∧ (numberedService.GetKind = "Service"
      ∧ StrMap.get [("my-svc", "my-secret")] numberedService.GetName = some "my-secret"
      ∧ numberedService.annotationValue "team" = some (.str "capi")
      ∧ transformObjs [("my-svc", "my-secret")] [numberedService]
          = [{ numberedService with
                annotations := some [(servingCertSecretName, .str "my-secret")] }]) := by
  decide

/-- C8 (pass-through): an object whose kind is Deployment, or any kind other
than CustomResourceDefinition, MutatingWebhookConfiguration,
ValidatingWebhookConfiguration, Service, Certificate, Issuer and Namespace,
appears in the output at its place and identical to the input, whatever the
CertSecretMap. -/
theorem pass_through (certSecretNames : StrMap) (pre post : List Unstructured)
    (obj : Unstructured)
    (hk : obj.GetKind = "Deployment" ∨
      (obj.GetKind ≠ "CustomResourceDefinition" ∧ obj.GetKind ≠ "MutatingWebhookConfiguration"
        ∧ obj.GetKind ≠ "ValidatingWebhookConfiguration" ∧ obj.GetKind ≠ "Service"
        ∧ obj.GetKind ≠ "Certificate" ∧ obj.GetKind ≠ "Issuer" ∧ obj.GetKind ≠ "Namespace")) :
    transformObjs certSecretNames (pre ++ obj :: post)
      = transformObjs certSecretNames pre ++ obj :: transformObjs certSecretNames post := by
  have h : obj.GetKind ≠ "CustomResourceDefinition" ∧ obj.GetKind ≠ "MutatingWebhookConfiguration"
      ∧ obj.GetKind ≠ "ValidatingWebhookConfiguration" ∧ obj.GetKind ≠ "Service"
      ∧ obj.GetKind ≠ "Certificate" ∧ obj.GetKind ≠ "Issuer" ∧ obj.GetKind ≠ "Namespace" := by
    rcases hk with e | h
    · rw [e]; decide
    · exact h
  obtain ⟨h1, h2, h3, h4, h5, h6, h7⟩ := h
  have hw : ¬ isWebhookKind obj := by
    unfold isWebhookKind; push_neg; exact ⟨h1, h2, h3⟩
  have hd : ¬ isDroppedKind obj := by
    unfold isDroppedKind; push_neg; exact ⟨h5, h6, h7⟩
  rw [transformObjs_split, transformStep_other certSecretNames [] hw h4 hd]; rfl

/-- Witness of C8: the sample Deployment, which even carries the injection
annotation and whose neighbours are rewritten, passes unchanged. -/
theorem pass_through_witness :
    transformObjs [("my-svc", "my-secret")] ([sampleCRD] ++ sampleDeployment :: [sampleService])
      = transformObjs [("my-svc", "my-secret")] [sampleCRD]
        ++ sampleDeployment :: transformObjs [("my-svc", "my-secret")] [sampleService] :=
  pass_through [("my-svc", "my-secret")] [sampleCRD] [sampleService] sampleDeployment
    (Or.inl (by decide))

/-! ## Lemmas on the resolver -/

theorem StrMap.has_set (m : StrMap) (k v k' : String) :
    StrMap.has (StrMap.set m k v) k' = true ↔ k' = k ∨ StrMap.has m k' = true := by
  by_cases h : k' = k
  · subst h
    simp [StrMap.has, StrMap.get_set_self]
  · simp [StrMap.has, StrMap.get_set_ne m v h, h]

theorem splitAux_no_sep (sep : Char) (cs cur : List Char) (h : sep ∉ cs) :
    splitAux sep cs cur = [cur.reverse ++ cs] := by
  induction cs generalizing cur with
  | nil => simp [splitAux]
  | cons c rest ih =>
    have hc : ¬ c = sep := fun e => h (by simp [e])
    have hr : sep ∉ rest := fun e => h (by simp [e])
    simp [splitAux, hc, ih _ hr]

theorem splitAux_sep (sep : Char) (as bs cur : List Char) (h : sep ∉ as) :
    splitAux sep (as ++ sep :: bs) cur = (cur.reverse ++ as) :: splitAux sep bs [] := by
  induction as generalizing cur with
  | nil => simp [splitAux]
  | cons c rest ih =>
    have hc : ¬ c = sep := fun e => h (by simp [e])
    have hr : sep ∉ rest := fun e => h (by simp [e])
    simp [splitAux, hc, ih _ hr]

/-- The value `<namespace>/<secretName>` splits into its two names. -/
theorem Split_pair (nsName secretName : String) (h1 : '/' ∉ nsName.toList)
    (h2 : '/' ∉ secretName.toList) :
    Split (nsName ++ "/" ++ secretName) '/' = [nsName, secretName] := by
  have e : (nsName ++ "/" ++ secretName).toList = nsName.toList ++ '/' :: secretName.toList := by
    simp [String.toList, String.data_append]
  unfold Split
  rw [e, splitAux_sep '/' _ _ _ h1, splitAux_no_sep '/' _ _ h2]
  simp [String.toList]

theorem findStep_other_kind (m : StrMap) {obj : Unstructured} (h : ¬ isWebhookKind obj) :
    findStep m obj = .ok m := by
  unfold isWebhookKind at h
  push_neg at h
  simp only [findStep, if_neg h.1, if_neg h.2.1, if_neg h.2.2]
  rfl

theorem findStep_failed (m : StrMap) {obj : Unstructured} (h : isWebhookKind obj) {err : Error}
    (ht : obj.typed = .failed err) : findStep m obj = .error (.ofError err) := by
  rcases h with e | e | e <;>
    simp [findStep, e, convertCRD, convertMWC, convertVWC, ht]

theorem findStep_unannotated (m : StrMap) {obj : Unstructured} {t : TypedFields}
    (ht : obj.typed = .decoded t) (ha : lookupNil obj.GetAnnotations injectCAFrom = none) :
    findStep m obj = .ok m := by
  have ha' : lookupNil obj.GetAnnotations injectCAFrom = none := ha
  by_cases h : isWebhookKind obj
  · rcases h with e | e | e <;>
      simp [findStep, e, convertCRD, convertMWC, convertVWC, ht, recordSecret, ha'] <;> rfl
  · exact findStep_other_kind m h

theorem crdServiceName_eq (anns : Option StrMap) (t : TypedFields) :
    crdServiceName { Annotations := anns, Spec := { Conversion := t.Conversion } }
      = match crdService t with
        | some service => .ok service.Name
        | none => .error .nilDereference := by
  unfold crdServiceName crdService
  cases t.Conversion with
  | none => rfl
  | some conversion =>
    cases h1 : conversion.Webhook with
    | none => simp [deref, h1, bind, Except.bind]
    | some webhook =>
      cases h2 : webhook.ClientConfig with
      | none => simp [deref, h1, h2, bind, Except.bind]
      | some clientConfig =>
        cases h3 : clientConfig.Service with
        | none => simp [deref, h1, h2, h3, bind, Except.bind]
        | some service => simp [deref, h1, h2, h3, bind, Except.bind, pure, Except.pure]

theorem webhooksServiceName_eq (t : TypedFields) :
    webhooksServiceName t.Webhooks
      = match firstWebhookService t with
        | some service => .ok service.Name
        | none =>
          match t.Webhooks with
          | [] => .error (.indexOutOfRange 0 0)
          | _ :: _ => .error .nilDereference := by
  unfold webhooksServiceName firstWebhookService
  cases t.Webhooks with
  | nil => rfl
  | cons first rest =>
    cases h : first.ClientConfig.Service with
    | none => simp [index, deref, h, bind, Except.bind]
    | some service => simp [index, deref, h, bind, Except.bind, pure, Except.pure]

/-- An annotated object of a relevant kind without a target Service name makes
the step panic. -/
theorem findStep_absent (m : StrMap) {obj : Unstructured} (h : isWebhookKind obj)
    (ha : isAnnotated obj) (hs : targetServiceName obj = none) :
    ∃ pn, findStep m obj = .error pn := by
  cases ht : obj.typed with
  | failed err => exact ⟨_, findStep_failed m h ht⟩
  | decoded t =>
    unfold isAnnotated at ha
    obtain ⟨sec, hsec⟩ := Option.ne_none_iff_exists'.mp ha
    have hsec' : lookupNil obj.GetAnnotations injectCAFrom = some sec := hsec
    unfold targetServiceName at hs
    rw [ht] at hs
    rcases h with e | e | e
    · have hc : crdService t = none := by simpa [e] using hs
      cases hi : index (Split sec '/') 1 with
      | error pi =>
        refine ⟨pi, ?_⟩
        simp [findStep, e, convertCRD, ht, recordSecret, hsec', hi, bind, Except.bind]
      | ok v =>
        refine ⟨.nilDereference, ?_⟩
        simp [findStep, e, convertCRD, ht, recordSecret, hsec', hi, crdServiceName_eq, hc, bind,
          Except.bind]
    · have hc : firstWebhookService t = none := by simpa [e] using hs
      have hq : ∃ pn, webhooksServiceName t.Webhooks = .error pn := by
        rw [webhooksServiceName_eq, hc]
        cases t.Webhooks <;> exact ⟨_, rfl⟩
      obtain ⟨pn, hpn⟩ := hq
      cases hi : index (Split sec '/') 1 with
      | error pi =>
        refine ⟨pi, ?_⟩
        simp [findStep, e, convertMWC, ht, recordSecret, hsec', hi, bind, Except.bind]
      | ok v =>
        refine ⟨pn, ?_⟩
        simp [findStep, e, convertMWC, ht, recordSecret, hsec', hi, hpn, bind, Except.bind]
    · have hc : firstWebhookService t = none := by simpa [e] using hs
      have hq : ∃ pn, webhooksServiceName t.Webhooks = .error pn := by
        rw [webhooksServiceName_eq, hc]
        cases t.Webhooks <;> exact ⟨_, rfl⟩
      obtain ⟨pn, hpn⟩ := hq
      cases hi : index (Split sec '/') 1 with
      | error pi =>
        refine ⟨pi, ?_⟩
        simp [findStep, e, convertVWC, ht, recordSecret, hsec', hi, bind, Except.bind]
      | ok v =>
        refine ⟨pn, ?_⟩
        simp [findStep, e, convertVWC, ht, recordSecret, hsec', hi, hpn, bind, Except.bind]

/-- An annotated object of a relevant kind with a target Service name: the step
binds that name to the second piece of the annotation value, and panics when
there is no second piece. -/
theorem findStep_present (m : StrMap) {obj : Unstructured} (h : isWebhookKind obj)
    {sec svc : String} (ha : lookupNil obj.GetAnnotations injectCAFrom = some sec)
    (hs : targetServiceName obj = some svc) :
    findStep m obj = match index (Split sec '/') 1 with
      | .ok v => .ok (StrMap.set m svc v)
      | .error pn => .error pn := by
  have ha' : lookupNil obj.GetAnnotations injectCAFrom = some sec := ha
  cases ht : obj.typed with
  | failed err => simp [targetServiceName, ht] at hs
  | decoded t =>
    unfold targetServiceName at hs
    rw [ht] at hs
    rcases h with e | e | e
    · have hc : (crdService t).map (fun service => service.Name) = some svc := by
        simpa [e] using hs
      obtain ⟨service, hser, hname⟩ := Option.map_eq_some'.mp hc
      cases hi : index (Split sec '/') 1 <;>
        simp [findStep, e, convertCRD, ht, recordSecret, ha', crdServiceName_eq, hser, hname, hi,
          bind, Except.bind, pure, Except.pure]
    · have hc : (firstWebhookService t).map (fun service => service.Name) = some svc := by
        simpa [e] using hs
      obtain ⟨service, hser, hname⟩ := Option.map_eq_some'.mp hc
      cases hi : index (Split sec '/') 1 <;>
        simp [findStep, e, convertMWC, ht, recordSecret, ha', webhooksServiceName_eq, hser, hname,
          hi, bind, Except.bind, pure, Except.pure]
    · have hc : (firstWebhookService t).map (fun service => service.Name) = some svc := by
        simpa [e] using hs
      obtain ⟨service, hser, hname⟩ := Option.map_eq_some'.mp hc
      cases hi : index (Split sec '/') 1 <;>
        simp [findStep, e, convertVWC, ht, recordSecret, ha', webhooksServiceName_eq, hser, hname,
          hi, bind, Except.bind, pure, Except.pure]

theorem findLoop_append (xs ys : List Unstructured) :
    ∀ m, findLoop m (xs ++ ys) = match findLoop m xs with
      | .ok m' => findLoop m' ys
      | .error pn => .error pn := by
  induction xs with
  | nil => intro m; rfl
  | cons x rest ih =>
    intro m
    simp only [List.cons_append, findLoop]
    cases findStep m x with
    | error pn => rfl
    | ok m' => exact ih m'

/-- A successful run over `pre ++ obj :: post` is a successful run over `pre`,
a successful step at `obj` and a successful run over `post`. -/
theorem findLoop_split {m₀ m : StrMap} (pre : List Unstructured) {post : List Unstructured}
    {obj : Unstructured} (h : findLoop m₀ (pre ++ obj :: post) = .ok m) :
    ∃ m₁ m₂, findLoop m₀ pre = .ok m₁ ∧ findStep m₁ obj = .ok m₂ ∧ findLoop m₂ post = .ok m := by
  rw [findLoop_append] at h
  cases h1 : findLoop m₀ pre with
  | error pn => rw [h1] at h; simp at h
  | ok m₁ =>
    rw [h1] at h
    simp only [findLoop] at h
    cases h2 : findStep m₁ obj with
    | error pn => rw [h2] at h; simp at h
    | ok m₂ =>
      rw [h2] at h
      exact ⟨m₁, m₂, rfl, h2, h⟩

/-- What a successful step did: nothing, at an object that is not of a relevant
kind or not annotated; or one assignment of the object's target Service name. -/
theorem findStep_ok_cases {m₁ m₂ : StrMap} {obj : Unstructured}
    (h : findStep m₁ obj = .ok m₂) :
    (m₂ = m₁ ∧ ¬ (isWebhookKind obj ∧ isAnnotated obj))
    ∨ (isWebhookKind obj ∧ ∃ sec svc v, lookupNil obj.GetAnnotations injectCAFrom = some sec
        ∧ targetServiceName obj = some svc ∧ index (Split sec '/') 1 = .ok v
        ∧ m₂ = StrMap.set m₁ svc v) := by
  by_cases hk : isWebhookKind obj
  · cases ha : lookupNil obj.GetAnnotations injectCAFrom with
    | none =>
      left
      cases ht : obj.typed with
      | failed err => rw [findStep_failed m₁ hk ht] at h; simp at h
      | decoded t =>
        rw [findStep_unannotated m₁ ht ha] at h
        refine ⟨(Except.ok.inj h).symm, fun hc => hc.2 ha⟩
    | some sec =>
      right
      have hann : isAnnotated obj := by unfold isAnnotated; rw [ha]; simp
      cases hs : targetServiceName obj with
      | none =>
        obtain ⟨pn, hpn⟩ := findStep_absent m₁ hk hann hs
        rw [hpn] at h; simp at h
      | some svc =>
        rw [findStep_present m₁ hk ha hs] at h
        cases hi : index (Split sec '/') 1 with
        | error pn => rw [hi] at h; simp at h
        | ok v =>
          rw [hi] at h
          exact ⟨hk, sec, svc, v, rfl, rfl, hi, (Except.ok.inj h).symm⟩
  · left
    rw [findStep_other_kind m₁ hk] at h
    exact ⟨(Except.ok.inj h).symm, fun hc => hk hc.1⟩

/-- A key of the map stays a key for the rest of the run. -/
theorem findLoop_has_mono (objs : List Unstructured) :
    ∀ {m₀ m : StrMap}, findLoop m₀ objs = .ok m → ∀ k, StrMap.has m₀ k = true →
      StrMap.has m k = true := by
  induction objs with
  | nil =>
    intro m₀ m h k hk
    simp only [findLoop] at h
    rw [← Except.ok.inj h]; exact hk
  | cons obj rest ih =>
    intro m₀ m h k hk
    obtain ⟨m₁, m₂, h1, h2, h3⟩ := findLoop_split [] h
    simp only [findLoop] at h1
    have e1 : m₀ = m₁ := Except.ok.inj h1
    subst e1
    refine ih h3 k ?_
    rcases findStep_ok_cases h2 with ⟨e, _⟩ | ⟨_, sec, svc, v, _, _, _, e⟩
    · rw [e]; exact hk
    · rw [e]; exact (StrMap.has_set _ _ _ _).mpr (Or.inr hk)

/-- The binding of a Service name that no annotated object of the rest of the
run targets stays as it is. -/
theorem findLoop_get_untargeted (svc : String) (objs : List Unstructured) :
    ∀ {m₀ m : StrMap}, findLoop m₀ objs = .ok m →
      (∀ o ∈ objs, ¬ (isWebhookKind o ∧ isAnnotated o ∧ targetServiceName o = some svc)) →
      StrMap.get m svc = StrMap.get m₀ svc := by
  induction objs with
  | nil =>
    intro m₀ m h _
    simp only [findLoop] at h
    rw [← Except.ok.inj h]
  | cons obj rest ih =>
    intro m₀ m h hno
    obtain ⟨m₁, m₂, h1, h2, h3⟩ := findLoop_split [] h
    simp only [findLoop] at h1
    have e1 : m₀ = m₁ := Except.ok.inj h1
    subst e1
    rw [ih h3 (fun o ho => hno o (List.mem_cons_of_mem _ ho))]
    rcases findStep_ok_cases h2 with ⟨e, _⟩ | ⟨hk, sec, svc', v, hsec, hs, _, e⟩
    · rw [e]
    · have hann : isAnnotated obj := by unfold isAnnotated; rw [hsec]; simp
      have hne : svc ≠ svc' := by
        intro e'
        exact hno obj (List.mem_cons_self _ _) ⟨hk, hann, by rw [hs, e']⟩
      rw [e, StrMap.get_set_ne _ _ hne]

/-- Every key of the map at the end of a run was a key at its start or is the
target Service name of an annotated object of a relevant kind met on the way. -/
theorem findLoop_keys (objs : List Unstructured) :
    ∀ {m₀ m : StrMap}, findLoop m₀ objs = .ok m → ∀ k, StrMap.has m k = true →
      StrMap.has m₀ k = true
      ∨ ∃ o ∈ objs, isWebhookKind o ∧ isAnnotated o ∧ targetServiceName o = some k := by
  induction objs with
  | nil =>
    intro m₀ m h k hk
    simp only [findLoop] at h
    left; rw [Except.ok.inj h]; exact hk
  | cons obj rest ih =>
    intro m₀ m h k hk
    obtain ⟨m₁, m₂, h1, h2, h3⟩ := findLoop_split [] h
    simp only [findLoop] at h1
    have e1 : m₀ = m₁ := Except.ok.inj h1
    subst e1
    rcases ih h3 k hk with hm₂ | ⟨o, ho, hp⟩
    · rcases findStep_ok_cases h2 with ⟨e, _⟩ | ⟨hw, sec, svc, v, hsec, hs, _, e⟩
      · left; rw [← e]; exact hm₂
      · rw [e] at hm₂
        rcases (StrMap.has_set _ _ _ _).mp hm₂ with e' | hm₀
        · right
          have hann : isAnnotated obj := by unfold isAnnotated; rw [hsec]; simp
          exact ⟨obj, List.mem_cons_self _ _, hw, hann, by rw [hs, e']⟩
        · left; exact hm₀
    · right
      exact ⟨o, List.mem_cons_of_mem _ ho, hp⟩

/-- A run over objects none of which is an annotated object of a relevant kind,
and all of which convert when they are of a relevant kind, changes nothing. -/
theorem findLoop_unannotated (objs : List Unstructured) (m : StrMap)
    (hconv : ∀ o ∈ objs, isWebhookKind o → ∃ t, o.typed = .decoded t)
    (hno : ∀ o ∈ objs, isWebhookKind o → lookupNil o.GetAnnotations injectCAFrom = none) :
    findLoop m objs = .ok m := by
  induction objs with
  | nil => rfl
  | cons obj rest ih =>
    have hstep : findStep m obj = .ok m := by
      by_cases hk : isWebhookKind obj
      · obtain ⟨t, ht⟩ := hconv obj (List.mem_cons_self _ _) hk
        exact findStep_unannotated m ht (hno obj (List.mem_cons_self _ _) hk)
      · exact findStep_other_kind m hk
    simp only [findLoop, hstep]
    exact ih (fun o ho => hconv o (List.mem_cons_of_mem _ ho))
      (fun o ho => hno o (List.mem_cons_of_mem _ ho))

theorem lookupNil_eq_annsOf (obj : Unstructured) (k : String) :
    lookupNil obj.GetAnnotations k = StrMap.get (annsOf obj) k := by
  unfold annsOf lookupNil
  cases obj.GetAnnotations <;> rfl

/-! ## The resolver: mapping, missing annotation, contract violation -/

/-- C4 (end-to-end scenario): for the component set made of one
CustomResourceDefinition that carries `cert-manager.io/inject-ca-from` with
value "ns/my-secret" and whose conversion webhook targets the Service "my-svc",
followed by one Service named "my-svc", the resolver succeeds and the transform
loop yields two objects: the CRD with
`service.beta.openshift.io/inject-cabundle` = "true" and without
`cert-manager.io/inject-ca-from`, and the Service with
`service.beta.openshift.io/serving-cert-secret-name` = "my-secret". -/
theorem end_to_end_scenario (p : provider) (crd svc : Unstructured)
    (hc : p.components = [crd, svc])
    (hk : crd.GetKind = "CustomResourceDefinition")
    (hann : lookupNil crd.GetAnnotations injectCAFrom = some "ns/my-secret")
    (ht : targetServiceName crd = some "my-svc")
    (hs : svc.GetKind = "Service") (hn : svc.GetName = "my-svc") :
    ∃ m crdOut svcOut, p.findWebhookCertSecretName = .ok m
      ∧ transformObjs m p.components = [crdOut, svcOut]
      ∧ crdOut.GetKind = "CustomResourceDefinition"
      ∧ lookupNil crdOut.GetAnnotations injectCABundle = some "true"
      ∧ lookupNil crdOut.GetAnnotations injectCAFrom = none
      ∧ svcOut.GetKind = "Service" ∧ svcOut.GetName = "my-svc"
      ∧ lookupNil svcOut.GetAnnotations servingCertSecretName = some "my-secret" := by
  have hw : isWebhookKind crd := Or.inl hk
  have h1 : findStep [] crd = .ok [("my-svc", "my-secret")] := by
    rw [findStep_present [] hw hann ht]; rfl
  have h2 : findStep [("my-svc", "my-secret")] svc = .ok [("my-svc", "my-secret")] :=
    findStep_other_kind _ (service_not_webhookKind hs)
  have hm : StrMap.get [("my-svc", "my-secret")] svc.GetName = some "my-secret" := by
    rw [hn]; rfl
  have ha : StrMap.has (annsOf crd) injectCAFrom = true := by
    unfold StrMap.has
    rw [← lookupNil_eq_annsOf, hann]; rfl
  refine ⟨[("my-svc", "my-secret")],
    crd.SetAnnotations
      (some (StrMap.delete (StrMap.set (annsOf crd) injectCABundle "true") injectCAFrom)),
    svc.SetAnnotations (some (StrMap.set (annsOf svc) servingCertSecretName "my-secret")),
    ?_, ?_, hk, ?_, ?_, hs, hn, ?_⟩
  · simp only [provider.findWebhookCertSecretName, hc, findLoop, h1, h2]
  · rw [hc, transformObjs_cons, transformObjs_cons, transformStep_webhook_annotated _ [] hw ha,
      transformStep_service_mapped _ [] hs hm]
    rfl
  · rw [lookupNil_SetAnnotations, StrMap.get_delete_ne _ (by decide), StrMap.get_set_self]
  · rw [lookupNil_SetAnnotations]
    exact StrMap.get_delete_self _ _
  · rw [lookupNil_SetAnnotations]
    exact StrMap.get_set_self _ _ _

/-- Witness of C4: the scenario on the sample CRD and the sample Service. -/
theorem end_to_end_scenario_witness :
    ∃ m crdOut svcOut,
      (loadedProvider [sampleCRD, sampleService]).findWebhookCertSecretName = .ok m
      ∧ transformObjs m (loadedProvider [sampleCRD, sampleService]).components = [crdOut, svcOut]
      ∧ crdOut.GetKind = "CustomResourceDefinition"
      ∧ lookupNil crdOut.GetAnnotations injectCABundle = some "true"
      ∧ lookupNil crdOut.GetAnnotations injectCAFrom = none
      ∧ svcOut.GetKind = "Service" ∧ svcOut.GetName = "my-svc"
      ∧ lookupNil svcOut.GetAnnotations servingCertSecretName = some "my-secret" :=
  end_to_end_scenario (loadedProvider [sampleCRD, sampleService]) sampleCRD sampleService rfl
    (by decide) (by decide) (by decide) (by decide) (by decide)

/-- C5 (resolver mapping): when `findWebhookCertSecretName` succeeds on a
component set, every object of kind CustomResourceDefinition,
MutatingWebhookConfiguration or ValidatingWebhookConfiguration in it that
carries `cert-manager.io/inject-ca-from` with a value `<namespace>/<secretName>`
has a target Service name (for a CRD the one of its conversion webhook, for a
webhook configuration the one of its first webhook entry), that name is a key of
the returned map, and its value is `<secretName>` provided no later annotated
object of a relevant kind targets the same Service name. -/
theorem resolver_mapping (p : provider) (m : StrMap)
    (hres : p.findWebhookCertSecretName = .ok m)
    (pre post : List Unstructured) (obj : Unstructured)
    (hsplit : p.components = pre ++ obj :: post)
    (hk : obj.GetKind = "CustomResourceDefinition" ∨ obj.GetKind = "MutatingWebhookConfiguration"
      ∨ obj.GetKind = "ValidatingWebhookConfiguration")
    (nsName secretName : String)
    (hann : lookupNil obj.GetAnnotations injectCAFrom = some (nsName ++ "/" ++ secretName))
    (h1 : '/' ∉ nsName.toList) (h2 : '/' ∉ secretName.toList) :
    ∃ svc, targetServiceName obj = some svc ∧ StrMap.has m svc = true
      ∧ ((∀ o ∈ post, ¬ (isWebhookKind o ∧ isAnnotated o ∧ targetServiceName o = some svc)) →
          StrMap.get m svc = some secretName) := by
  have hw : isWebhookKind obj := hk
  unfold provider.findWebhookCertSecretName at hres
  rw [hsplit] at hres
  obtain ⟨m₁, m₂, _, hstep, hpost⟩ := findLoop_split pre hres
  have habs : ¬ (isWebhookKind obj ∧ isAnnotated obj) → False := by
    intro hc
    apply hc
    refine ⟨hw, ?_⟩
    unfold isAnnotated; rw [hann]; simp
  rcases findStep_ok_cases hstep with ⟨_, hc⟩ | ⟨_, sec, svc, v, hsec, hs, hi, e⟩
  · exact absurd hc (fun h => habs h)
  · have esec : sec = nsName ++ "/" ++ secretName := by
      rw [hann] at hsec; exact (Option.some.inj hsec).symm
    have ev : v = secretName := by
      rw [esec, Split_pair nsName secretName h1 h2] at hi
      simp [index] at hi
      exact hi.symm
    refine ⟨svc, hs, ?_, ?_⟩
    · refine findLoop_has_mono post hpost svc ?_
      rw [e]; exact (StrMap.has_set _ _ _ _).mpr (Or.inl rfl)
    · intro hno
      rw [findLoop_get_untargeted svc post hpost hno, e, StrMap.get_set_self, ev]

/-- Witness of C5: the sample CRD in front of the sample Service binds "my-svc"
to "my-secret". -/
theorem resolver_mapping_witness :
    ∃ svc, targetServiceName sampleCRD = some svc
      ∧ StrMap.has [("my-svc", "my-secret")] svc = true
      ∧ ((∀ o ∈ [sampleService],
            ¬ (isWebhookKind o ∧ isAnnotated o ∧ targetServiceName o = some svc)) →
          StrMap.get [("my-svc", "my-secret")] svc = some "my-secret") :=
  resolver_mapping (loadedProvider [sampleCRD, sampleService]) [("my-svc", "my-secret")]
    (by decide) [] [sampleService] sampleCRD rfl (Or.inl (by decide)) "ns" "my-secret"
    (by decide) (by decide) (by decide)

/-- C6, as the code has it (resolver, missing annotation): in a component set
whose unannotated objects of a relevant kind all convert, an object that is not
an annotated object of a relevant kind (it lacks the annotation, whatever its
Service reference, or it is of another kind) contributes nothing and causes no
error: the resolver's result is the one for the set without it. Every key of a
returned map is the target Service name of some annotated object of a relevant
kind, and a set with no annotated object of a relevant kind yields the empty
map. -/
theorem resolver_unannotated (p : provider)
    (hconv : ∀ o ∈ p.components, isWebhookKind o → ¬ isAnnotated o →
      ∃ t, o.typed = .decoded t) :
    (∀ pre obj post, p.components = pre ++ obj :: post →
        ¬ (isWebhookKind obj ∧ isAnnotated obj) →
        p.findWebhookCertSecretName
          = ({ p with components := pre ++ post }).findWebhookCertSecretName)
    ∧ (∀ m, p.findWebhookCertSecretName = .ok m → ∀ k, StrMap.has m k = true →
        ∃ o ∈ p.components, isWebhookKind o ∧ isAnnotated o ∧ targetServiceName o = some k)
    ∧ ((∀ o ∈ p.components, ¬ (isWebhookKind o ∧ isAnnotated o)) →
        p.findWebhookCertSecretName = .ok []) := by
  refine ⟨?_, ?_, ?_⟩
  · intro pre obj post hsplit hno
    have hstep : ∀ m₁, findStep m₁ obj = .ok m₁ := by
      intro m₁
      by_cases hk : isWebhookKind obj
      · have hna : ¬ isAnnotated obj := fun ha => hno ⟨hk, ha⟩
        obtain ⟨t, ht⟩ := hconv obj (by rw [hsplit]; simp) hk hna
        refine findStep_unannotated m₁ ht ?_
        unfold isAnnotated at hna
        exact not_not.mp hna
      · exact findStep_other_kind m₁ hk
    simp only [provider.findWebhookCertSecretName, hsplit]
    rw [findLoop_append, findLoop_append]
    cases findLoop [] pre with
    | error pn => rfl
    | ok m₁ => simp only [findLoop, hstep m₁]
  · intro m hres k hk
    rcases findLoop_keys p.components hres k hk with h | h
    · simp [StrMap.has, StrMap.get] at h
    · exact h
  · intro hno
    refine findLoop_unannotated p.components [] ?_ ?_
    · intro o ho hk
      exact hconv o ho hk (fun ha => hno o ho ⟨hk, ha⟩)
    · intro o ho hk
      have hna : ¬ isAnnotated o := fun ha => hno o ho ⟨hk, ha⟩
      unfold isAnnotated at hna
      exact not_not.mp hna

/-- Witness of C6: a CRD without annotation and without conversion, followed by
a Service, yields the empty map. -/
theorem resolver_unannotated_witness :
    (loadedProvider [plainCRD, sampleService]).findWebhookCertSecretName = .ok [] :=
  (resolver_unannotated (loadedProvider [plainCRD, sampleService])
    (by
      intro o ho _ _
      simp only [loadedProvider, List.mem_cons, List.mem_singleton, List.not_mem_nil,
        or_false] at ho
      rcases ho with e | e <;> subst e <;> exact ⟨_, rfl⟩)).2.2
    (by
      intro o ho
      simp only [loadedProvider, List.mem_cons, List.mem_singleton, List.not_mem_nil,
        or_false] at ho
      rcases ho with e | e <;> subst e <;> decide)

/-- Counterexample to C6 as stated: a CustomResourceDefinition that lacks
`cert-manager.io/inject-ca-from` but whose content the scheme cannot convert
makes the resolver panic with the conversion error; the component set has no
annotated object of a relevant kind and yet yields no map. -/
theorem resolver_unannotated_counterexample :
    unconvertibleCRD.GetKind = "CustomResourceDefinition"
      ∧ lookupNil unconvertibleCRD.GetAnnotations injectCAFrom = none
      ∧ (loadedProvider [unconvertibleCRD]).findWebhookCertSecretName
          = .error (.ofError (.plain "unable to convert unstructured object"))
      ∧ (loadedProvider [unconvertibleCRD]).findWebhookCertSecretName ≠ .ok [] := by
  decide

/-- C7 (resolver contract violation): when a component set contains an object
of a relevant kind that carries `cert-manager.io/inject-ca-from` and whose
target Service reference is absent (a CRD without conversion, conversion
webhook, client configuration or Service; a webhook configuration with an empty
webhook list or a first webhook without Service), `findWebhookCertSecretName`
panics and returns no map. -/
theorem resolver_contract_violation (p : provider) (pre post : List Unstructured)
    (obj : Unstructured) (hsplit : p.components = pre ++ obj :: post)
    (hk : obj.GetKind = "CustomResourceDefinition" ∨ obj.GetKind = "MutatingWebhookConfiguration"
      ∨ obj.GetKind = "ValidatingWebhookConfiguration")
    (hann : lookupNil obj.GetAnnotations injectCAFrom ≠ none)
    (habs : targetServiceName obj = none) :
    ∃ pn, p.findWebhookCertSecretName = .error pn := by
  have hw : isWebhookKind obj := hk
  simp only [provider.findWebhookCertSecretName, hsplit]
  rw [findLoop_append]
  cases findLoop [] pre with
  | error pn => exact ⟨pn, rfl⟩
  | ok m₁ =>
    obtain ⟨pn, hpn⟩ := findStep_absent m₁ hw hann habs
    exact ⟨pn, by simp only [findLoop, hpn]⟩

/-- Witness of C7: an annotated CRD without conversion, between two other objects. -/
theorem resolver_contract_violation_witness :
    ∃ pn, (loadedProvider [sampleService, crdWithoutConversion, sampleCRD]).findWebhookCertSecretName
      = .error pn :=
  resolver_contract_violation (loadedProvider [sampleService, crdWithoutConversion, sampleCRD])
    [sampleService] [sampleCRD] crdWithoutConversion rfl (Or.inl (by decide)) (by decide)
    (by decide)

/-! ## Lemmas on the loader, the writer and the driver -/

/-- The loader keeps the identity of the provider. -/
theorem loadComponents_identity {env : Env} {p q : provider}
    (h : p.loadComponents env = .ok q) :
    q.name = p.name ∧ q.ptype = p.ptype ∧ q.version = p.version := by
  unfold provider.loadComponents at h
  split at h
  · simp at h
  · split at h
    · simp at h
    · split at h
      · simp at h
      · split at h
        · simp at h
        · simp only at h
          split at h
          · simp at h
          · split at h
            · simp at h
            · have e := Except.ok.inj h
              subst e
              exact ⟨rfl, rfl, rfl⟩

theorem loadComponents_artifactPath {env : Env} {p q : provider}
    (h : p.loadComponents env = .ok q) : q.artifactPath env = p.artifactPath env := by
  obtain ⟨h1, h2, _⟩ := loadComponents_identity h
  unfold provider.artifactPath
  rw [h1, h2]

/-- A write changes the file at the path written and no other file. -/
theorem WriteFile_files {env : Env} {w w' : World} {path data : String} {r : Option Error}
    (h : WriteFile env w path data = (w', r)) :
    (r = none → w'.files path = some data)
    ∧ (∀ q, q ≠ path → w'.files q = w.files q) := by
  unfold WriteFile at h
  split at h
  · have e := (Prod.mk.inj h)
    constructor
    · intro hr; rw [hr] at e; simp at e
    · intro q _; rw [← e.1]
  · have e := (Prod.mk.inj h)
    constructor
    · intro _; rw [← e.1]; simp
    · intro q hq; rw [← e.1]; simp [hq]

/-- The writer changes at most the artifact file of its provider, and after a
successful return that file exists. -/
theorem writeProvider_files {env : Env} {p : provider} {objs : List Unstructured}
    {w w' : World} {r : Option Error} (h : p.writeProvider env objs w = (w', r)) :
    (r = none → (w'.files (p.artifactPath env)).isSome = true)
    ∧ (∀ q, q ≠ p.artifactPath env → w'.files q = w.files q) := by
  unfold provider.writeProvider at h
  split at h
  · have e := Prod.mk.inj h
    constructor
    · intro hr; rw [hr] at e; simp at e
    · intro q _; rw [← e.1]
  · simp only at h
    split at h
    · have e := Prod.mk.inj h
      constructor
      · intro hr; rw [hr] at e; simp at e
      · intro q _; rw [← e.1]
    · obtain ⟨h1, h2⟩ := WriteFile_files h
      constructor
      · intro hr
        unfold provider.artifactPath
        rw [h1 hr]; rfl
      · exact h2

theorem Println_files (w : World) (a b : String) : (Println w a b).files = w.files := rfl

/-- The loop over `xs ++ ys` is the loop over `xs` and, when that returns `nil`,
the loop over `ys` from the world it leaves. -/
theorem importLoop_append (env : Env) (xs ys : List provider) :
    ∀ w, importLoop env w (xs ++ ys) =
      match importLoop env w xs with
      | (w', .returned none) => importLoop env w' ys
      | r => r := by
  induction xs with
  | nil => intro w; rfl
  | cons p rest ih =>
    intro w
    simp only [List.cons_append, importLoop]
    cases p.loadComponents env with
    | error err => rfl
    | ok q =>
      simp only
      cases q.findWebhookCertSecretName with
      | error pn => rfl
      | ok m =>
        simp only
        rcases hw : q.writeProvider env (transformObjs m q.components) (Println w q.ptype q.name)
          with ⟨w', r⟩
        cases r with
        | some err => rfl
        | none => exact ih w'

/-- After a loop that returned `nil`, the artifact file of every provider of the
list exists, and every file that is the artifact file of none of them is as
before. -/
theorem importLoop_files (env : Env) (ps : List provider) :
    ∀ {w w' : World}, importLoop env w ps = (w', .returned none) →
      (∀ p ∈ ps, (w'.files (p.artifactPath env)).isSome = true)
      ∧ (∀ q, (∀ p ∈ ps, p.artifactPath env ≠ q) → w'.files q = w.files q) := by
  induction ps with
  | nil =>
    intro w w' h
    simp only [importLoop] at h
    have e := (Prod.mk.inj h).1
    subst e
    exact ⟨fun p hp => by simp at hp, fun q _ => rfl⟩
  | cons p rest ih =>
    intro w w' h
    simp only [importLoop] at h
    cases hl : p.loadComponents env with
    | error err => rw [hl] at h; simp at h
    | ok q =>
      rw [hl] at h
      simp only at h
      cases hf : q.findWebhookCertSecretName with
      | error pn => rw [hf] at h; simp at h
      | ok m =>
        rw [hf] at h
        simp only at h
        rcases hw : q.writeProvider env (transformObjs m q.components) (Println w q.ptype q.name)
          with ⟨w₁, r⟩
        rw [hw] at h
        cases r with
        | some err => simp at h
        | none =>
          simp only at h
          obtain ⟨ih1, ih2⟩ := ih h
          obtain ⟨hw1, hw2⟩ := writeProvider_files hw
          have hpath := loadComponents_artifactPath hl
          constructor
          · intro p' hp'
            rcases List.mem_cons.mp hp' with e | hin
            · subst e
              by_cases hc : ∃ r ∈ rest, r.artifactPath env = p'.artifactPath env
              · obtain ⟨r, hr, er⟩ := hc
                rw [← er]; exact ih1 r hr
              · push_neg at hc
                rw [ih2 _ hc, ← hpath]
                exact hw1 rfl
            · exact ih1 p' hin
          · intro path hne
            rw [ih2 path (fun r hr => hne r (List.mem_cons_of_mem _ hr)),
              hw2 path (by rw [hpath]; exact (hne p (List.mem_cons_self _ _)).symm),
              Println_files]

/-! ## The driver and the loader: fail-fast, error context -/

/-- C9, as the code has it (fail-fast): with the output directory starting
empty, when the providers in front of a provider load and write successfully
and loading that provider fails, the loop returns exactly that error, the
artifact file of every provider in front exists, and no file exists at the
artifact path of the failing provider or of a later one, unless that path is
also the artifact path of a provider in front. -/
theorem fail_fast (env : Env) (before after : List provider) (failing : provider) (err : Error)
    (hbefore : (importLoop env World.empty before).2 = .returned none)
    (hload : failing.loadComponents env = .error err) :
    (importLoop env World.empty (before ++ failing :: after)).2 = .returned (some err)
    ∧ (∀ p ∈ before,
        ((importLoop env World.empty (before ++ failing :: after)).1.files
          (p.artifactPath env)).isSome = true)
    ∧ (∀ q ∈ failing :: after,
        (∀ p ∈ before, p.artifactPath env ≠ q.artifactPath env) →
        (importLoop env World.empty (before ++ failing :: after)).1.files (q.artifactPath env)
          = none) := by
  rcases hb : importLoop env World.empty before with ⟨w, r⟩
  rw [hb] at hbefore
  simp only at hbefore
  subst hbefore
  have hrun : importLoop env World.empty (before ++ failing :: after)
      = (w, .returned (some err)) := by
    rw [importLoop_append, hb]
    simp only [importLoop, hload]
  obtain ⟨h1, h2⟩ := importLoop_files env before hb
  rw [hrun]
  refine ⟨rfl, h1, ?_⟩
  intro q _ hne
  simp only
  rw [h2 _ hne]
  rfl

/-- Witness of C9: in the static table, when the files of `azure` (third in the
table) cannot be fetched, the run returns the fetch error, the artifact files of
`cluster-api` and `aws` exist and the one of `azure` does not. -/
theorem fail_fast_witness :
    (importProviders (sampleEnv missingAzureVersion) World.empty).2
        = .returned (some (.plain "404 Not Found"))
    ∧ ((importProviders (sampleEnv missingAzureVersion) World.empty).1.files
        "/repo/assets/providers/core-cluster-api.yaml").isSome = true
    ∧ ((importProviders (sampleEnv missingAzureVersion) World.empty).1.files
        "/repo/assets/providers/infrastructure-aws.yaml").isSome = true
    ∧ (importProviders (sampleEnv missingAzureVersion) World.empty).1.files
        "/repo/assets/providers/infrastructure-azure.yaml" = none := by
  have h := fail_fast (sampleEnv missingAzureVersion) (providers.take 2) (providers.drop 3)
    azureProvider (.plain "404 Not Found") (by decide) (by decide)
  refine ⟨h.1, h.2.1 (providers.get ⟨0, by decide⟩) (by decide),
    h.2.1 (providers.get ⟨1, by decide⟩) (by decide), ?_⟩
  exact h.2.2 azureProvider (List.mem_cons_self _ _) (by decide)

/-- Counterexample to C9 as stated: two providers with the same type and name
(two versions of `aws`) share their artifact path; when loading the second one
fails after the first one has been written, a file does exist at the artifact
path of the failing provider. -/
theorem fail_fast_counterexample :
    (importLoop (sampleEnv missingNextVersion) World.empty [awsProvider]).2 = .returned none
    ∧ awsNextProvider.loadComponents (sampleEnv missingNextVersion)
        = .error (.plain "404 Not Found")
    ∧ (importLoop (sampleEnv missingNextVersion) World.empty [awsProvider, awsNextProvider]).2
        = .returned (some (.plain "404 Not Found"))
    ∧ (importLoop (sampleEnv missingNextVersion) World.empty
        [awsProvider, awsNextProvider]).1.files
          (awsNextProvider.artifactPath (sampleEnv missingNextVersion))
        = some "v0.7.0:2" := by
  decide

/-- C10, as the code has it (fetch error context): when the fetch of the
provider-declared components path fails, `loadComponents` returns the fetch
error wrapped with a context that names the path fetched and the manifest label
of the provider (and not the version). -/
theorem fetch_error_context (env : Env) (p : provider) (configClient : ConfigClient)
    (providerConfig : ProviderConfig) (repo : Repository) (metadata : String) (err : Error)
    (hclient : env.configclientNew = .ok configClient)
    (hconfig : configClient.providersGet p.name p.ptype = .ok providerConfig)
    (hrepo : env.newGitHubRepository providerConfig = .ok repo)
    (hmeta : repo.getFile p.version "metadata.yaml" = .ok metadata)
    (hcomp : repo.getFile p.version repo.componentsPath = .error err) :
    p.loadComponents env
      = .error (.wrapf err "failed to read %q from provider's repository %q"
          [repo.componentsPath, providerConfig.manifestLabel]) := by
  simp only [provider.loadComponents, hclient, hconfig, hrepo, hmeta, hcomp]

/-- Witness of C10: the provider `aws` when its components file is missing. -/
theorem fetch_error_context_witness :
    awsProvider.loadComponents (sampleEnv missingComponents)
      = .error (.wrapf (.plain "404 Not Found")
          "failed to read %q from provider's repository %q"
          ["components.yaml", "infrastructure-aws"]) :=
  fetch_error_context (sampleEnv missingComponents) awsProvider
    { providersGet := fun name ptype =>
        .ok { name := name, ptype := ptype, url := "https://github.com/example/" ++ name
              manifestLabel := "infrastructure-" ++ name } }
    { name := "aws", ptype := InfrastructureProviderType, url := "https://github.com/example/aws"
      manifestLabel := "infrastructure-aws" }
    (sampleRepository missingComponents) "content of metadata.yaml at v0.7.0"
    (.plain "404 Not Found") rfl rfl rfl rfl rfl

/-- Counterexample to C10 as stated: when the fetch of `metadata.yaml` fails,
`loadComponents` returns the fetch error itself, which is not a wrapped error;
and when the fetch of the components path fails, the context of the wrapped
error names the path and the manifest label, not the version. -/
theorem fetch_error_context_counterexample :
    (sampleRepository missingMetadata).getFile awsProvider.version "metadata.yaml"
        = .error (.plain "404 Not Found")
    ∧ awsProvider.loadComponents (sampleEnv missingMetadata) = .error (.plain "404 Not Found")
    ∧ (∀ format args,
        Error.plain "404 Not Found" ≠ Error.wrapf (.plain "404 Not Found") format args)
    ∧ awsProvider.loadComponents (sampleEnv missingComponents)
        = .error (.wrapf (.plain "404 Not Found")
            "failed to read %q from provider's repository %q"
            ["components.yaml", "infrastructure-aws"])
    ∧ awsProvider.version ∉ ["components.yaml", "infrastructure-aws"] := by
  refine ⟨by decide, by decide, ?_, by decide, by decide⟩
  intro format args h
  cases h

/-! ## Lemmas on the shape of the transform -/

/-- What one step of the transform loop does to an object: a dropped kind gives
nothing; every other object gives exactly one object, which is the input itself,
or the input with its annotations replaced by the rewrite of its kind. -/
theorem transformStep_cases (m : StrMap) (obj : Unstructured) :
    (isDroppedKind obj ∧ transformStep m [] obj = [])
    ∨ (¬ isDroppedKind obj ∧ transformStep m [] obj = [obj]
        ∧ (isWebhookKind obj → ¬ isAnnotated obj)
        ∧ (obj.GetKind = "Service" → StrMap.get m obj.GetName = none))
    ∨ (isWebhookKind obj ∧ isAnnotated obj ∧ transformStep m [] obj = [obj.SetAnnotations
        (some (StrMap.delete (StrMap.set (annsOf obj) injectCABundle "true") injectCAFrom))])
    ∨ (obj.GetKind = "Service" ∧ ∃ secret, StrMap.get m obj.GetName = some secret
        ∧ transformStep m [] obj = [obj.SetAnnotations
            (some (StrMap.set (annsOf obj) servingCertSecretName secret))]) := by
  by_cases h1 : isWebhookKind obj
  · cases ha : StrMap.has (annsOf obj) injectCAFrom
    · right; left
      refine ⟨isWebhookKind_not_dropped h1, ?_, ?_, ?_⟩
      · rw [transformStep_webhook_plain m [] h1 ha]; rfl
      · intro _ hann
        unfold isAnnotated at hann
        rw [lookupNil_eq_annsOf] at hann
        unfold StrMap.has at ha
        cases hg : StrMap.get (annsOf obj) injectCAFrom
        · exact hann hg
        · rw [hg] at ha; simp at ha
      · intro hs
        exact absurd hs (isWebhookKind_not_service h1)
    · right; right; left
      refine ⟨h1, ?_, ?_⟩
      · unfold isAnnotated
        rw [lookupNil_eq_annsOf]
        unfold StrMap.has at ha
        intro hg
        rw [hg] at ha; simp at ha
      · rw [transformStep_webhook_annotated m [] h1 ha]; rfl
  · by_cases h2 : obj.GetKind = "Service"
    · cases hm : StrMap.get m obj.GetName with
      | none =>
        right; left
        refine ⟨service_not_dropped h2, ?_, fun h => absurd h h1, fun _ => rfl⟩
        rw [transformStep_service_unmapped m [] h2 hm]; rfl
      | some secret =>
        right; right; right
        refine ⟨h2, secret, rfl, ?_⟩
        rw [transformStep_service_mapped m [] h2 hm]; rfl
    · by_cases h3 : isDroppedKind obj
      · left
        exact ⟨h3, transformStep_dropped m [] h3⟩
      · right; left
        refine ⟨h3, ?_, fun h => absurd h h1, fun h => absurd h h2⟩
        rw [transformStep_other m [] h1 h2 h3]; rfl

/-- An object that comes out of a step is not of a dropped kind and is the
object that went in, or that object with its annotations replaced. -/
theorem transformStep_out (m : StrMap) (obj out : Unstructured)
    (h : out ∈ transformStep m [] obj) :
    ¬ isDroppedKind obj ∧ transformStep m [] obj = [out]
      ∧ (out = obj ∨ ∃ anns, out = obj.SetAnnotations (some anns)) := by
  rcases transformStep_cases m obj with ⟨_, e⟩ | ⟨hd, e, _⟩ | ⟨hw, _, e⟩ | ⟨hs, secret, _, e⟩
  · rw [e] at h; simp at h
  · rw [e] at h
    have eo : out = obj := by simpa using h
    subst eo
    exact ⟨hd, e, Or.inl rfl⟩
  · rw [e] at h
    have eo := List.mem_singleton.mp h
    subst eo
    exact ⟨isWebhookKind_not_dropped hw, e, Or.inr ⟨_, rfl⟩⟩
  · rw [e] at h
    have eo := List.mem_singleton.mp h
    subst eo
    exact ⟨service_not_dropped hs, e, Or.inr ⟨_, rfl⟩⟩

theorem SetAnnotations_identity (obj : Unstructured) (anns : Option StrMap) :
    (obj.SetAnnotations anns).GetKind = obj.GetKind
      ∧ (obj.SetAnnotations anns).nspace = obj.nspace
      ∧ (obj.SetAnnotations anns).GetName = obj.GetName := by
  cases anns <;> exact ⟨rfl, rfl, rfl⟩

/-- The kind, the namespace and the name of an object that comes out of a step
are those of the object that went in. -/
theorem transformStep_out_identity {m : StrMap} {obj out : Unstructured}
    (h : out ∈ transformStep m [] obj) :
    out.GetKind = obj.GetKind ∧ out.nspace = obj.nspace ∧ out.GetName = obj.GetName := by
  obtain ⟨_, _, e | ⟨anns, e⟩⟩ := transformStep_out m obj out h
  · rw [e]; exact ⟨rfl, rfl, rfl⟩
  · rw [e]; exact SetAnnotations_identity obj (some anns)

/-- The resolver does not look at Services: a Service can be taken out of the
component set without changing the run. -/
theorem findLoop_skip_service (m₀ : StrMap) (pre post : List Unstructured) {svc : Unstructured}
    (hk : svc.GetKind = "Service") :
    findLoop m₀ (pre ++ svc :: post) = findLoop m₀ (pre ++ post) := by
  rw [findLoop_append, findLoop_append]
  cases findLoop m₀ pre with
  | error pn => rfl
  | ok m₁ => simp only [findLoop, findStep_other_kind m₁ (service_not_webhookKind hk)]

theorem identity_of_step {m : StrMap} {obj out : Unstructured}
    (h : out ∈ transformStep m [] obj) : identity out = identity obj := by
  obtain ⟨h1, h2, h3⟩ := transformStep_out_identity h
  unfold identity
  rw [h1, h2, h3]

/-- C15 (order-preserving filter): the identities (kind, namespace, name) of
the transform output are the identities of the input with exactly the objects
of kind Certificate, Issuer and Namespace removed, in the input order; so the
output has as many objects as the input minus the dropped ones. -/
theorem order_preserving_filter (certSecretNames : StrMap) (objs : List Unstructured) :
    (transformObjs certSecretNames objs).map identity
        = (objs.filter (fun o => decide (o.GetKind ≠ "Certificate" ∧ o.GetKind ≠ "Issuer"
            ∧ o.GetKind ≠ "Namespace"))).map identity
    ∧ (transformObjs certSecretNames objs).length
        = objs.length - objs.countP (fun o => decide (o.GetKind = "Certificate"
            ∨ o.GetKind = "Issuer" ∨ o.GetKind = "Namespace")) := by
  have hmap : (transformObjs certSecretNames objs).map identity
      = (objs.filter (fun o => decide (o.GetKind ≠ "Certificate" ∧ o.GetKind ≠ "Issuer"
          ∧ o.GetKind ≠ "Namespace"))).map identity := by
    induction objs with
    | nil => simp [transformObjs, transformLoop]
    | cons obj rest ih =>
      rw [transformObjs_cons, List.map_append, ih]
      by_cases hd : isDroppedKind obj
      · have hf : ¬ (obj.GetKind ≠ "Certificate" ∧ obj.GetKind ≠ "Issuer"
            ∧ obj.GetKind ≠ "Namespace") := by
          unfold isDroppedKind at hd
          intro hc
          rcases hd with e | e | e
          · exact hc.1 e
          · exact hc.2.1 e
          · exact hc.2.2 e
        rw [transformStep_dropped certSecretNames [] hd, List.filter_cons_of_neg (by simpa using hf)]
        rfl
      · have hf : obj.GetKind ≠ "Certificate" ∧ obj.GetKind ≠ "Issuer"
            ∧ obj.GetKind ≠ "Namespace" := by
          unfold isDroppedKind at hd
          push_neg at hd
          exact hd
        rw [List.filter_cons_of_pos (by simpa using hf)]
        rcases transformStep_cases certSecretNames obj with ⟨h, _⟩ | ⟨_, e, _⟩ | ⟨_, _, e⟩
            | ⟨_, secret, _, e⟩
        · exact absurd h hd
        · rw [e]; rfl
        · rw [e]; rfl
        · rw [e]; rfl
  refine ⟨hmap, ?_⟩
  have hlen := congrArg List.length hmap
  rw [List.length_map, List.length_map] at hlen
  rw [hlen]
  have hsum := List.length_eq_countP_add_countP
    (fun o : Unstructured => decide (o.GetKind = "Certificate" ∨ o.GetKind = "Issuer"
      ∨ o.GetKind = "Namespace")) objs
  have hcount : (objs.filter (fun o => decide (o.GetKind ≠ "Certificate" ∧ o.GetKind ≠ "Issuer"
      ∧ o.GetKind ≠ "Namespace"))).length
      = objs.countP (fun o => decide ¬ (decide (o.GetKind = "Certificate" ∨ o.GetKind = "Issuer"
          ∨ o.GetKind = "Namespace")) = true) := by
    rw [List.countP_eq_length_filter]
    congr 1
    apply List.filter_congr
    intro o _
    simp [not_or]
  rw [hcount]
  omega

/-- An annotated object of a relevant kind met by a successful run makes its
target Service name a key of the map. -/
theorem findLoop_has_target (objs : List Unstructured) :
    ∀ {m₀ m : StrMap}, findLoop m₀ objs = .ok m → ∀ o ∈ objs, isWebhookKind o → isAnnotated o →
      ∀ k, targetServiceName o = some k → StrMap.has m k = true := by
  induction objs with
  | nil => intro m₀ m _ o ho; simp at ho
  | cons obj rest ih =>
    intro m₀ m h o ho hk ha k ht
    obtain ⟨m₁, m₂, h1, h2, h3⟩ := findLoop_split [] h
    simp only [findLoop] at h1
    have e1 : m₀ = m₁ := Except.ok.inj h1
    subst e1
    rcases List.mem_cons.mp ho with e | hin
    · subst e
      refine findLoop_has_mono rest h3 k ?_
      rcases findStep_ok_cases h2 with ⟨_, hc⟩ | ⟨_, sec, svc, v, _, hs, _, e⟩
      · exact absurd ⟨hk, ha⟩ hc
      · rw [ht] at hs
        rw [e, ← Option.some.inj hs]
        exact (StrMap.has_set _ _ _ _).mpr (Or.inl rfl)
    · exact ih h3 o hin hk ha k ht

/-! ## Re-import, position of a Service, several writers, malformed values -/

/-- C17 (independence from the Service's position): two component sets that
differ only in the position of one Service give the same resolver result, and
under that result the same output object for the Service, at its place in each
set; when an annotated object of a relevant kind anywhere in the set, before or
after the Service, targets the Service's name, that output object carries the
serving-certificate annotation. -/
theorem service_position_independent (p q : provider) (svc : Unstructured)
    (hk : svc.GetKind = "Service") (pre post pre' post' : List Unstructured)
    (hp : p.components = pre ++ svc :: post) (hq : q.components = pre' ++ svc :: post')
    (hsame : pre ++ post = pre' ++ post') :
    p.findWebhookCertSecretName = q.findWebhookCertSecretName
    ∧ ∀ m, p.findWebhookCertSecretName = .ok m →
        ∃ out, transformObjs m p.components = transformObjs m pre ++ out :: transformObjs m post
          ∧ transformObjs m q.components = transformObjs m pre' ++ out :: transformObjs m post'
          ∧ (∀ obj ∈ pre ++ post, isWebhookKind obj → isAnnotated obj →
              targetServiceName obj = some svc.GetName →
              lookupNil out.GetAnnotations servingCertSecretName ≠ none) := by
  have hfind : p.findWebhookCertSecretName = q.findWebhookCertSecretName := by
    simp only [provider.findWebhookCertSecretName, hp, hq]
    rw [findLoop_skip_service [] pre post hk, findLoop_skip_service [] pre' post' hk, hsame]
  refine ⟨hfind, ?_⟩
  intro m hres
  have hres' : findLoop [] (pre ++ post) = .ok m := by
    simp only [provider.findWebhookCertSecretName, hp] at hres
    rw [findLoop_skip_service [] pre post hk] at hres
    exact hres
  cases hm : StrMap.get m svc.GetName with
  | none =>
    refine ⟨svc, ?_, ?_, ?_⟩
    · rw [hp, transformObjs_split, transformStep_service_unmapped m [] hk hm]; rfl
    · rw [hq, transformObjs_split, transformStep_service_unmapped m [] hk hm]; rfl
    · intro obj hobj hw ha ht
      have hhas := findLoop_has_target (pre ++ post) hres' obj hobj hw ha _ ht
      unfold StrMap.has at hhas
      rw [hm] at hhas
      simp at hhas
  | some secret =>
    refine ⟨svc.SetAnnotations (some (StrMap.set (annsOf svc) servingCertSecretName secret)),
      ?_, ?_, ?_⟩
    · rw [hp, transformObjs_split, transformStep_service_mapped m [] hk hm]; rfl
    · rw [hq, transformObjs_split, transformStep_service_mapped m [] hk hm]; rfl
    · intro _ _ _ _ _
      rw [lookupNil_SetAnnotations, StrMap.get_set_self]
      simp

/-- Witness of C17: the sample Service after and before the sample CRD. -/
theorem service_position_independent_witness :
    (loadedProvider [sampleCRD, sampleService]).findWebhookCertSecretName
      = (loadedProvider [sampleService, sampleCRD]).findWebhookCertSecretName
    ∧ ∀ m, (loadedProvider [sampleCRD, sampleService]).findWebhookCertSecretName = .ok m →
        ∃ out, transformObjs m (loadedProvider [sampleCRD, sampleService]).components
            = transformObjs m [sampleCRD] ++ out :: transformObjs m []
          ∧ transformObjs m (loadedProvider [sampleService, sampleCRD]).components
            = transformObjs m [] ++ out :: transformObjs m [sampleCRD]
          ∧ (∀ obj ∈ [sampleCRD] ++ [], isWebhookKind obj → isAnnotated obj →
              targetServiceName obj = some sampleService.GetName →
              lookupNil out.GetAnnotations servingCertSecretName ≠ none) :=
  service_position_independent (loadedProvider [sampleCRD, sampleService])
    (loadedProvider [sampleService, sampleCRD]) sampleService (by decide)
    [sampleCRD] [] [] [sampleCRD] rfl rfl rfl

/-- C18 (last writer wins): when the resolver succeeds and an annotated object
of a relevant kind targets a Service name that no later annotated object of a
relevant kind targets, the returned map binds that Service name to the secret
name of this object (the second piece of its annotation value), whatever
earlier objects recorded for the same Service name. -/
theorem last_writer_wins (p : provider) (m : StrMap)
    (hres : p.findWebhookCertSecretName = .ok m)
    (pre post : List Unstructured) (last : Unstructured)
    (hsplit : p.components = pre ++ last :: post)
    (hk : last.GetKind = "CustomResourceDefinition"
      ∨ last.GetKind = "MutatingWebhookConfiguration"
      ∨ last.GetKind = "ValidatingWebhookConfiguration")
    (sec svc : String)
    (hann : lookupNil last.GetAnnotations injectCAFrom = some sec)
    (ht : targetServiceName last = some svc)
    (hlast : ∀ o ∈ post, ¬ (isWebhookKind o ∧ isAnnotated o ∧ targetServiceName o = some svc)) :
    ∃ secretName, index (Split sec '/') 1 = .ok secretName
      ∧ StrMap.get m svc = some secretName := by
  have hw : isWebhookKind last := hk
  unfold provider.findWebhookCertSecretName at hres
  rw [hsplit] at hres
  obtain ⟨m₁, m₂, _, hstep, hpost⟩ := findLoop_split pre hres
  rw [findStep_present m₁ hw hann ht] at hstep
  cases hi : index (Split sec '/') 1 with
  | error pn => rw [hi] at hstep; simp at hstep
  | ok v =>
    rw [hi] at hstep
    have e : m₂ = StrMap.set m₁ svc v := (Except.ok.inj hstep).symm
    refine ⟨v, rfl, ?_⟩
    rw [findLoop_get_untargeted svc post hpost hlast, e, StrMap.get_set_self]

/-- Witness of C18: two CRDs target `my-svc` with different secrets; the map
holds the secret of the second one. -/
theorem last_writer_wins_witness :
    ∃ secretName, index (Split "ns/other-secret" '/') 1 = .ok secretName
      ∧ StrMap.get [("my-svc", "other-secret")] "my-svc" = some secretName :=
  last_writer_wins (loadedProvider [sampleCRD, rivalCRD, sampleService])
    [("my-svc", "other-secret")] (by decide) [sampleCRD] [sampleService] rivalCRD rfl
    (Or.inl (by decide)) "ns/other-secret" "my-svc" (by decide) (by decide) (by decide)

/-- The pieces of `strings.Split`: the first piece runs to the first separator,
the other pieces are those of the text behind it. -/
theorem splitAux_eq (sep : Char) (cs : List Char) :
    ∀ cur, splitAux sep cs cur
      = (cur.reverse ++ cs.takeWhile (fun c => c != sep))
        :: (match cs.dropWhile (fun c => c != sep) with
            | [] => []
            | _ :: rest => splitAux sep rest []) := by
  induction cs with
  | nil => intro cur; simp [splitAux]
  | cons c rest ih =>
    intro cur
    by_cases h : c = sep
    · subst h
      simp [splitAux, List.takeWhile, List.dropWhile]
    · have hb : (c != sep) = true := by simpa using h
      simp only [splitAux, if_neg h, ih, List.takeWhile, List.dropWhile, hb]
      simp

theorem dropWhile_ne_nil_iff (sep : Char) (cs : List Char) :
    cs.dropWhile (fun c => c != sep) = [] ↔ sep ∉ cs := by
  induction cs with
  | nil => simp
  | cons c rest ih =>
    by_cases h : c = sep
    · subst h
      simp [List.dropWhile]
    · have hb : (c != sep) = true := by simpa using h
      have hne : ¬ sep = c := fun e => h e.symm
      simp [List.dropWhile, hb, ih, hne]

/-- The second piece of a value: absent without a slash, else the text between
the first slash and the second one or the end. -/
theorem index_Split_one (sec : String) :
    ('/' ∉ sec.toList → index (Split sec '/') 1 = .error (.indexOutOfRange 1 1))
    ∧ ('/' ∈ sec.toList → index (Split sec '/') 1 = .ok (textAfterFirstSlash sec)) := by
  unfold Split textAfterFirstSlash
  rw [splitAux_eq]
  constructor
  · intro h
    rw [(dropWhile_ne_nil_iff '/' sec.toList).mpr h]
    rfl
  · intro h
    cases hd : sec.toList.dropWhile (fun c => c != '/') with
    | nil => exact absurd ((dropWhile_ne_nil_iff '/' sec.toList).mp hd) (not_not.mpr h)
    | cons c rest =>
      simp only [List.drop]
      rw [splitAux_eq]
      simp [index]

/-- C19 (malformed annotation value): for an object of a relevant kind that
carries `cert-manager.io/inject-ca-from` and has a Service reference, anywhere
in a component set. When the value contains no slash,
`findWebhookCertSecretName` fails. When the objects in front of it are resolved
to a map, the step at the object fails exactly when the value contains no
slash, and otherwise records, for the Service, the text between the first slash
and the second slash or the end of the value, and the run goes on from that
map; so when nothing fails behind the object, `findWebhookCertSecretName` fails
exactly when the value contains no slash. A returned map holds that text for
the Service unless a later annotated object targets the same Service. So
"ns/a/b" records "a" and "ns/" records the empty string. -/
theorem malformed_value (p : provider) (pre post : List Unstructured) (obj : Unstructured)
    (hp : p.components = pre ++ obj :: post)
    (hk : obj.GetKind = "CustomResourceDefinition" ∨ obj.GetKind = "MutatingWebhookConfiguration"
      ∨ obj.GetKind = "ValidatingWebhookConfiguration")
    (sec svc : String)
    (hann : lookupNil obj.GetAnnotations injectCAFrom = some sec)
    (ht : targetServiceName obj = some svc) :
    ('/' ∉ sec.toList → ∃ pn, p.findWebhookCertSecretName = .error pn)
    ∧ (∀ m₁, findLoop [] pre = .ok m₁ →
        ((∃ pn, findStep m₁ obj = .error pn) ↔ '/' ∉ sec.toList)
        ∧ ('/' ∈ sec.toList →
            findStep m₁ obj = .ok (StrMap.set m₁ svc (textAfterFirstSlash sec))
            ∧ p.findWebhookCertSecretName
                = findLoop (StrMap.set m₁ svc (textAfterFirstSlash sec)) post)
        ∧ ((∃ m, findLoop (StrMap.set m₁ svc (textAfterFirstSlash sec)) post = .ok m) →
            ((∃ pn, p.findWebhookCertSecretName = .error pn) ↔ '/' ∉ sec.toList)))
    ∧ (∀ m, p.findWebhookCertSecretName = .ok m →
        '/' ∈ sec.toList
        ∧ ((∀ o ∈ post, ¬ (isWebhookKind o ∧ isAnnotated o ∧ targetServiceName o = some svc)) →
            StrMap.get m svc = some (textAfterFirstSlash sec)))
    ∧ textAfterFirstSlash "ns/a/b" = "a" ∧ textAfterFirstSlash "ns/" = "" := by
  have hw : isWebhookKind obj := hk
  obtain ⟨hno, hyes⟩ := index_Split_one sec
  have hstepNo : '/' ∉ sec.toList → ∀ m₁, findStep m₁ obj = .error (.indexOutOfRange 1 1) := by
    intro h m₁
    rw [findStep_present m₁ hw hann ht, hno h]
  have hstepYes : '/' ∈ sec.toList → ∀ m₁,
      findStep m₁ obj = .ok (StrMap.set m₁ svc (textAfterFirstSlash sec)) := by
    intro h m₁
    rw [findStep_present m₁ hw hann ht, hyes h]
  have hrun : ∀ m₁, findLoop [] pre = .ok m₁ →
      p.findWebhookCertSecretName = match findStep m₁ obj with
        | .error pn => .error pn
        | .ok m₂ => findLoop m₂ post := by
    intro m₁ h1
    simp only [provider.findWebhookCertSecretName, hp]
    rw [findLoop_append, h1]
    simp only [findLoop]
  have hfail : '/' ∉ sec.toList → ∃ pn, p.findWebhookCertSecretName = .error pn := by
    intro h
    cases h1 : findLoop [] pre with
    | error pn =>
      refine ⟨pn, ?_⟩
      simp only [provider.findWebhookCertSecretName, hp]
      rw [findLoop_append, h1]
    | ok m₁ =>
      refine ⟨.indexOutOfRange 1 1, ?_⟩
      rw [hrun m₁ h1, hstepNo h m₁]
  refine ⟨hfail, ?_, ?_, by decide, by decide⟩
  · intro m₁ h1
    refine ⟨⟨?_, fun h => ⟨_, hstepNo h m₁⟩⟩, ?_, ?_⟩
    · rintro ⟨pn, hpn⟩ hin
      rw [hstepYes hin m₁] at hpn
      simp at hpn
    · intro hin
      refine ⟨hstepYes hin m₁, ?_⟩
      rw [hrun m₁ h1, hstepYes hin m₁]
    · rintro ⟨m, hm⟩
      refine ⟨?_, hfail⟩
      rintro ⟨pn, hpn⟩ hin
      simp [hrun m₁ h1, hstepYes hin m₁, hm] at hpn
  · intro m hm
    have hin : '/' ∈ sec.toList := by
      by_contra hnot
      obtain ⟨pn, hpn⟩ := hfail hnot
      rw [hpn] at hm
      simp at hm
    refine ⟨hin, ?_⟩
    intro hlast
    unfold provider.findWebhookCertSecretName at hm
    rw [hp] at hm
    obtain ⟨m₁, m₂, _, hstep, hpost⟩ := findLoop_split pre hm
    rw [hstepYes hin m₁] at hstep
    rw [findLoop_get_untargeted svc post hpost hlast, ← Except.ok.inj hstep,
      StrMap.get_set_self]

/-- Witness of C19: a webhook configuration whose annotation value has no
slash, between the sample CRD and the sample Service, makes the resolver fail. -/
theorem malformed_value_witness :
    ∃ pn, (loadedProvider [sampleCRD, slashlessWebhook, sampleService]).findWebhookCertSecretName
      = .error pn :=
  (malformed_value (loadedProvider [sampleCRD, slashlessWebhook, sampleService])
    [sampleCRD] [sampleService] slashlessWebhook rfl
    (Or.inr (Or.inr (by decide))) "my-secret" "my-svc" (by decide) (by decide)).1 (by decide)

/-! ## The writer and the driver: artifact contents, re-runs -/

/-- C12 (artifact contents): once the final object sequence is serialised,
`writeProvider` marshals and writes one resource, whose name is the provider
version, whose namespace is "openshift-cluster-api", whose labels are exactly
`provider-name` = the provider name and `provider-type` = the lower-cased
provider type with "provider" removed, and whose data are exactly `metadata` =
the fetched metadata and `components` = the serialisation of the final object
sequence. -/
theorem artifact_contents (env : Env) (p : provider) (objs : List Unstructured) (w : World)
    (combined : String) (hser : env.fromUnstructured objs = .ok combined) :
    ∃ cm : ConfigMap,
      p.writeProvider env objs w
          = (match env.yamlMarshal cm with
            | .error err => (w, some err)
            | .ok cmYaml => WriteFile env w (p.artifactPath env) cmYaml)
      ∧ cm.Name = p.version
      ∧ cm.Namespace = "openshift-cluster-api"
      ∧ cm.Labels = [("provider-name", p.name),
          ("provider-type", ReplaceAll (ToLower env.unicodeToLower p.ptype) "provider" "")]
      ∧ cm.Data = [("metadata", p.metadata), ("components", combined)] := by
  refine ⟨{ Name := p.version
            Namespace := "openshift-cluster-api"
            Labels := [("provider-name", p.name),
              ("provider-type", ReplaceAll (ToLower env.unicodeToLower p.ptype) "provider" "")]
            Data := [("metadata", p.metadata), ("components", combined)] }, ?_, rfl, rfl, rfl, rfl⟩
  simp only [provider.writeProvider, hser]
  rfl

/-- Witness of C12: the resource of the provider `aws` for the two sample objects. -/
theorem artifact_contents_witness :
    ∃ cm : ConfigMap,
      awsProvider.writeProvider (sampleEnv nothingMissing) [sampleCRD, sampleService] World.empty
          = (match (sampleEnv nothingMissing).yamlMarshal cm with
            | .error err => (World.empty, some err)
            | .ok cmYaml => WriteFile (sampleEnv nothingMissing) World.empty
                (awsProvider.artifactPath (sampleEnv nothingMissing)) cmYaml)
      ∧ cm.Name = awsProvider.version
      ∧ cm.Namespace = "openshift-cluster-api"
      ∧ cm.Labels = [("provider-name", awsProvider.name),
          ("provider-type",
            ReplaceAll (ToLower (sampleEnv nothingMissing).unicodeToLower awsProvider.ptype)
              "provider" "")]
      ∧ cm.Data = [("metadata", awsProvider.metadata),
          ("components", "clusters.cluster.x-k8s.io---my-svc")] :=
  artifact_contents (sampleEnv nothingMissing) awsProvider [sampleCRD, sampleService] World.empty
    "clusters.cluster.x-k8s.io---my-svc" (by decide)

/-- The writer from two worlds: the same result, and the same content at every
path at which the worlds agree and at the path written. -/
theorem writeProvider_congr (env : Env) (p : provider) (objs : List Unstructured)
    (w v : World) :
    (p.writeProvider env objs w).2 = (p.writeProvider env objs v).2
    ∧ ∀ q, (w.files q = v.files q
            ∨ ((p.writeProvider env objs w).2 = none ∧ q = p.artifactPath env)) →
        (p.writeProvider env objs w).1.files q = (p.writeProvider env objs v).1.files q := by
  unfold provider.writeProvider
  cases env.fromUnstructured objs with
  | error err =>
    refine ⟨rfl, ?_⟩
    rintro q (h | ⟨h, _⟩)
    · exact h
    · simp at h
  | ok combined =>
    simp only
    cases env.yamlMarshal _ with
    | error err =>
      refine ⟨rfl, ?_⟩
      rintro q (h | ⟨h, _⟩)
      · exact h
      · simp at h
    | ok cmYaml =>
      simp only [WriteFile]
      cases env.writeFileErr _ cmYaml with
      | some err =>
        refine ⟨rfl, ?_⟩
        rintro q (h | ⟨h, _⟩)
        · exact h
        · simp at h
      | none =>
        refine ⟨rfl, ?_⟩
        rintro q (h | ⟨_, h⟩)
        · simp only [h]
        · have e : q = pathJoin env.providersPath
              (ToLower env.unicodeToLower
                (ReplaceAll (ToLower env.unicodeToLower p.ptype) "provider" "" ++ "-" ++ p.name
                  ++ ".yaml")) := h
          simp only [if_pos e]

/-- The loop from two worlds: the same outcome, and the same content at every
path at which the worlds agree and, after a run that returned `nil`, at every
artifact path. -/
theorem importLoop_congr (env : Env) (ps : List provider) :
    ∀ w v : World, (importLoop env w ps).2 = (importLoop env v ps).2
      ∧ ∀ q, (w.files q = v.files q
              ∨ ((importLoop env w ps).2 = .returned none ∧ ∃ p ∈ ps, p.artifactPath env = q)) →
          (importLoop env w ps).1.files q = (importLoop env v ps).1.files q := by
  induction ps with
  | nil =>
    intro w v
    refine ⟨rfl, ?_⟩
    rintro q (h | ⟨_, p, hp, _⟩)
    · exact h
    · simp at hp
  | cons p rest ih =>
    intro w v
    simp only [importLoop]
    cases hl : p.loadComponents env with
    | error err =>
      refine ⟨rfl, ?_⟩
      rintro q (h | ⟨h, _⟩)
      · exact h
      · simp at h
    | ok loaded =>
      simp only
      cases hf : loaded.findWebhookCertSecretName with
      | error pn =>
        refine ⟨rfl, ?_⟩
        rintro q (h | ⟨h, _⟩)
        · exact h
        · simp at h
      | ok m =>
        simp only
        obtain ⟨hr, hfiles⟩ := writeProvider_congr env loaded (transformObjs m loaded.components)
          (Println w loaded.ptype loaded.name) (Println v loaded.ptype loaded.name)
        rcases hw : loaded.writeProvider env (transformObjs m loaded.components)
          (Println w loaded.ptype loaded.name) with ⟨w₁, r⟩
        rcases hv : loaded.writeProvider env (transformObjs m loaded.components)
          (Println v loaded.ptype loaded.name) with ⟨v₁, r'⟩
        rw [hw, hv] at hr hfiles
        simp only at hr hfiles
        subst hr
        cases r with
        | some err =>
          refine ⟨rfl, ?_⟩
          rintro q (h | ⟨h, _⟩)
          · exact hfiles q (Or.inl h)
          · simp at h
        | none =>
          simp only
          obtain ⟨ih1, ih2⟩ := ih w₁ v₁
          refine ⟨ih1, ?_⟩
          rintro q (h | ⟨hok, p', hp', hq⟩)
          · exact ih2 q (Or.inl (hfiles q (Or.inl h)))
          · rcases List.mem_cons.mp hp' with e | hin
            · subst e
              refine ih2 q (Or.inl (hfiles q (Or.inr ⟨rfl, ?_⟩)))
              rw [loadComponents_artifactPath hl]
              exact hq.symm
            · exact ih2 q (Or.inr ⟨hok, p', hin, hq⟩)

/-- C13 (idempotence of a re-run): for fixed collaborators under which every
provider succeeds from some initial state, a second run right after the first
one succeeds too and leaves every file of the output directory exactly as the
first run left it; and the artifacts do not depend on the initial state, so two
runs from the same inputs produce equal artifacts. -/
theorem rerun_idempotent (env : Env) (ps : List provider) (w : World)
    (hok : (importLoop env w ps).2 = .returned none) :
    (importLoop env (importLoop env w ps).1 ps).2 = .returned none
    ∧ (importLoop env (importLoop env w ps).1 ps).1.files = (importLoop env w ps).1.files
    ∧ ∀ v : World, ∀ p ∈ ps,
        (importLoop env v ps).1.files (p.artifactPath env)
          = (importLoop env w ps).1.files (p.artifactPath env) := by
  have hok₂ : (importLoop env (importLoop env w ps).1 ps).2 = .returned none := by
    rw [(importLoop_congr env ps (importLoop env w ps).1 w).1]; exact hok
  refine ⟨hok₂, ?_, ?_⟩
  · funext q
    by_cases hq : ∃ p ∈ ps, p.artifactPath env = q
    · exact (importLoop_congr env ps (importLoop env w ps).1 w).2 q (Or.inr ⟨hok₂, hq⟩)
    · push_neg at hq
      have hrun : importLoop env (importLoop env w ps).1 ps
          = ((importLoop env (importLoop env w ps).1 ps).1, .returned none) := by
        rw [← hok₂]
      exact (importLoop_files env ps hrun).2 q hq
  · intro v p hp
    have hv : (importLoop env v ps).2 = .returned none := by
      rw [(importLoop_congr env ps v w).1]; exact hok
    exact (importLoop_congr env ps v w).2 _ (Or.inr ⟨hv, p, hp, rfl⟩)

/-- Witness of C13: the static table, every file being available, from a world
whose output directory is not empty. -/
theorem rerun_idempotent_witness :
    (importProviders (sampleEnv nothingMissing)
        (importProviders (sampleEnv nothingMissing) usedWorld).1).2 = .returned none
    ∧ (importProviders (sampleEnv nothingMissing)
        (importProviders (sampleEnv nothingMissing) usedWorld).1).1.files
        = (importProviders (sampleEnv nothingMissing) usedWorld).1.files
    ∧ ∀ v : World, ∀ p ∈ providers,
        (importProviders (sampleEnv nothingMissing) v).1.files
            (p.artifactPath (sampleEnv nothingMissing))
          = (importProviders (sampleEnv nothingMissing) usedWorld).1.files
            (p.artifactPath (sampleEnv nothingMissing)) :=
  rerun_idempotent (sampleEnv nothingMissing) providers usedWorld (by decide)

/-! ## Lemmas on `strings.ToLower` and `path.Join` -/

theorem splitAux_append_sep (sep : Char) (as bs : List Char) :
    ∀ cur, splitAux sep (as ++ sep :: bs) cur = splitAux sep as cur ++ splitAux sep bs [] := by
  induction as with
  | nil => intro cur; simp [splitAux]
  | cons c rest ih =>
    intro cur
    by_cases h : c = sep
    · simp [splitAux, h, ih]
    · simp [splitAux, h, ih]

theorem toList_append (a b : String) : (a ++ b).toList = a.toList ++ b.toList := by
  simp [String.toList, String.data_append]

/-- The pieces of `dir/file` are the pieces of `dir` and then those of `file`. -/
theorem Split_dir_file (dir file : String) :
    Split (dir ++ "/" ++ file) '/' = Split dir '/' ++ Split file '/' := by
  have e : (dir ++ "/" ++ file).toList = dir.toList ++ '/' :: file.toList := by
    simp [String.toList, String.data_append]
  unfold Split
  rw [e, splitAux_append_sep, List.map_append]

theorem splitAux_ne_nil (sep : Char) (cs : List Char) : ∀ cur, splitAux sep cs cur ≠ [] := by
  induction cs with
  | nil => intro cur; simp [splitAux]
  | cons c rest ih =>
    intro cur
    by_cases h : c = sep
    · simp [splitAux, h]
    · simp only [splitAux, if_neg h]
      exact ih _

theorem Split_ne_nil (s : String) (sep : Char) : Split s sep ≠ [] := by
  unfold Split
  intro h
  exact splitAux_ne_nil sep s.toList [] (List.map_eq_nil_iff.mp h)

theorem intercalate_go_left (sep x : String) (l : List String) :
    ∀ acc, String.intercalate.go (x ++ acc) sep l = x ++ String.intercalate.go acc sep l := by
  induction l with
  | nil => intro acc; simp [String.intercalate.go]
  | cons a rest ih =>
    intro acc
    simp only [String.intercalate.go]
    rw [String.append_assoc, String.append_assoc, ih, String.append_assoc]

theorem intercalate_cons (sep a : String) (l : List String) (hl : l ≠ []) :
    String.intercalate sep (a :: l) = a ++ sep ++ String.intercalate sep l := by
  cases l with
  | nil => exact absurd rfl hl
  | cons b rest =>
    simp only [String.intercalate, String.intercalate.go]
    rw [String.append_assoc, String.append_assoc, intercalate_go_left, intercalate_go_left]

theorem intercalate_append (sep : String) (l l' : List String) (hl : l ≠ []) (hl' : l' ≠ []) :
    String.intercalate sep (l ++ l')
      = String.intercalate sep l ++ sep ++ String.intercalate sep l' := by
  induction l with
  | nil => exact absurd rfl hl
  | cons a rest ih =>
    cases rest with
    | nil =>
      simp only [List.cons_append, List.nil_append]
      rw [intercalate_cons sep a l' hl']
      rfl
    | cons b rest' =>
      have h1 : (b :: rest') ++ l' ≠ [] := by simp
      rw [List.cons_append, intercalate_cons sep a _ h1, ih (by simp),
        intercalate_cons sep a (b :: rest') (by simp)]
      simp only [String.append_assoc]

/-- Joining the pieces of a string by slashes gives the string back. -/
theorem intercalate_splitAux (cs : List Char) :
    ∀ cur, String.intercalate "/" ((splitAux '/' cs cur).map String.mk)
      = String.mk (cur.reverse ++ cs) := by
  induction cs with
  | nil => intro cur; simp [splitAux, String.intercalate, String.intercalate.go]
  | cons c rest ih =>
    intro cur
    by_cases h : c = '/'
    · subst h
      simp only [splitAux, if_true, List.map_cons]
      rw [intercalate_cons "/" _ _ (by
        intro hc
        exact splitAux_ne_nil '/' rest [] (List.map_eq_nil_iff.mp hc)), ih]
      apply String.ext
      simp [String.data_append]
    · simp only [splitAux, if_neg h]
      rw [ih]
      simp

theorem intercalate_Split (s : String) : String.intercalate "/" (Split s '/') = s := by
  unfold Split
  rw [intercalate_splitAux]
  simp [String.toList]

theorem ToLower_append (lower : Char → Char) (a b : String) :
    ToLower lower (a ++ b) = ToLower lower a ++ ToLower lower b := by
  unfold ToLower
  apply String.ext
  simp [String.toList, String.data_append]

/-- On a string of ASCII characters a lower-case mapping that agrees with Go's on
ASCII gives the ASCII lower case. -/
theorem ToLower_ascii (lower : Char → Char)
    (hlower : ∀ c : Char, c.toNat < 128 → lower c = c.toLower) (s : String)
    (hs : ∀ c ∈ s.toList, c.toNat < 128) : ToLower lower s = ToLower Char.toLower s := by
  unfold ToLower
  congr 1
  apply List.map_congr_left
  intro c hc
  exact hlower c (hs c hc)

theorem cleanStep_plain (rooted : Bool) (kept : List String) (elem : String)
    (h1 : elem ≠ "") (h2 : elem ≠ ".") (h3 : elem ≠ "..") :
    cleanStep rooted kept elem = elem :: kept := by
  unfold cleanStep
  rw [if_neg (by push_neg; exact ⟨h1, h2⟩), if_neg h3]

/-- Path elements none of which is empty, `.` or `..` are all kept by `path.Clean`. -/
theorem foldl_cleanStep_plain (rooted : Bool) (elems : List String)
    (h : ∀ e ∈ elems, e ≠ "" ∧ e ≠ "." ∧ e ≠ "..") :
    ∀ kept, elems.foldl (cleanStep rooted) kept = elems.reverse ++ kept := by
  induction elems with
  | nil => intro kept; rfl
  | cons e rest ih =>
    intro kept
    obtain ⟨h1, h2, h3⟩ := h e (List.mem_cons_self _ _)
    simp only [List.foldl_cons, cleanStep_plain rooted kept e h1 h2 h3]
    rw [ih (fun e' he' => h e' (List.mem_cons_of_mem _ he'))]
    simp

theorem head_dir_file (dir file : String) (hd : dir ≠ "") :
    (dir ++ "/" ++ file).toList.head? = dir.toList.head? := by
  have e : (dir ++ "/" ++ file).toList = dir.toList ++ '/' :: file.toList := by
    simp [String.toList, String.data_append]
  rw [e]
  cases hl : dir.toList with
  | nil =>
    exfalso
    apply hd
    apply String.ext
    exact hl
  | cons c rest => rfl

theorem append_slash_ne_empty (a b : String) : a ++ "/" ++ b ≠ "" := by
  intro h
  have hl := congrArg String.length h
  simp [String.length_append] at hl
  exact absurd hl.1.2 (by decide)

/-- Joining a relative path none of whose elements is empty, `.` or `..` to a
directory that is already a cleaned path, other than `.` and `/`, appends a
slash and the relative path. -/
theorem pathJoin_clean_dir (dir file : String)
    (hdir : pathClean dir = dir) (h1 : dir ≠ ".") (h2 : dir ≠ "/")
    (hfile : ∀ e ∈ Split file '/', e ≠ "" ∧ e ≠ "." ∧ e ≠ "..") :
    pathJoin dir file = dir ++ "/" ++ file := by
  have hd : dir ≠ "" := by
    intro e
    rw [e] at hdir
    exact absurd hdir (by decide)
  have hf1 : file ≠ "" := by
    intro e
    rw [e] at hfile
    exact (hfile "" (by decide)).1 rfl
  have hne : dir ++ "/" ++ file ≠ "" := append_slash_ne_empty dir file
  have hj : pathJoin dir file = pathClean (dir ++ "/" ++ file) := by
    unfold pathJoin
    rw [if_neg (fun h => hd h.1), if_neg hd, if_neg hf1]
  rw [hj]
  unfold pathClean at hdir ⊢
  rw [if_neg hd] at hdir
  rw [if_neg hne]
  simp only [head_dir_file dir file hd, Split_dir_file dir file, List.foldl_append,
    foldl_cleanStep_plain _ _ hfile, List.reverse_append, List.reverse_reverse] at hdir ⊢
  generalize List.foldl (cleanStep (decide (dir.toList.head? = some '/'))) [] (Split dir '/')
    = kept at hdir ⊢
  have hk : kept.reverse ≠ [] := by
    intro e
    rw [e] at hdir
    by_cases hr : decide (dir.toList.head? = some '/') = true
    · rw [if_pos hr] at hdir
      exact h2 hdir.symm
    · rw [if_neg hr] at hdir
      exact h1 hdir.symm
  rw [intercalate_append "/" _ _ hk (Split_ne_nil file '/'), intercalate_Split]
  by_cases hr : decide (dir.toList.head? = some '/') = true
  · rw [if_pos hr] at hdir ⊢
    rw [← String.append_assoc, ← String.append_assoc, hdir]
  · rw [if_neg hr] at hdir ⊢
    rw [if_neg (append_slash_ne_empty _ _)]
    by_cases hb : String.intercalate "/" kept.reverse = ""
    · rw [if_pos hb] at hdir
      exact absurd hdir.symm h1
    · rw [if_neg hb] at hdir
      rw [hdir]

/-- The artifact path of a provider whose type has the file-name part `t`, under
a cleaned output directory, when no path element of the file name is empty,
`.` or `..`. -/
theorem artifactPath_eq (env : Env) (p : provider) (t : String)
    (hrep : ReplaceAll (ToLower env.unicodeToLower p.ptype) "provider" "" = t)
    (hlow : ToLower env.unicodeToLower t = t)
    (hdash : ToLower env.unicodeToLower "-" = "-")
    (hyaml : ToLower env.unicodeToLower ".yaml" = ".yaml")
    (helems : ∀ e ∈ Split (t ++ "-" ++ ToLower env.unicodeToLower p.name ++ ".yaml") '/',
      e ≠ "" ∧ e ≠ "." ∧ e ≠ "..")
    (hdir : pathClean env.providersPath = env.providersPath)
    (h1 : env.providersPath ≠ ".") (h2 : env.providersPath ≠ "/") :
    p.artifactPath env
      = env.providersPath ++ "/" ++ t ++ "-" ++ ToLower env.unicodeToLower p.name ++ ".yaml" := by
  have hfile : ToLower env.unicodeToLower
      (ReplaceAll (ToLower env.unicodeToLower p.ptype) "provider" "" ++ "-" ++ p.name ++ ".yaml")
      = t ++ "-" ++ ToLower env.unicodeToLower p.name ++ ".yaml" := by
    rw [hrep, ToLower_append, ToLower_append, ToLower_append, hlow, hdash, hyaml]
  unfold provider.artifactPath
  rw [hfile, pathJoin_clean_dir _ _ hdir h1 h2 helems]
  simp only [String.append_assoc]

/-! ## The writer: artifact path -/

/-- C11, as the code has it (artifact path): for a provider whose type is
CoreProvider, InfrastructureProvider, BootstrapProvider or ControlPlaneProvider,
`<t>` being core, infrastructure, bootstrap or controlplane and `<n>` the
provider name lower-cased by Go's `strings.ToLower`, when no path element of
the file name `<t>-<n>.yaml` is empty, `.` or `..` (`providersPath` being a
cleaned path, as `path.Join` returns it, other than `.` and `/`), a successful
`writeProvider` writes the file `<providersPath>/<t>-<n>.yaml` and no other
file. -/
theorem artifact_path (env : Env) (p : provider) (objs : List Unstructured) (w w' : World)
    (t : String)
    (ht : (p.ptype, t) ∈ [(CoreProviderType, "core"),
      (InfrastructureProviderType, "infrastructure"), (BootstrapProviderType, "bootstrap"),
      (ControlPlaneProviderType, "controlplane")])
    (hlower : ∀ c : Char, c.toNat < 128 → env.unicodeToLower c = c.toLower)
    (helems : ∀ e ∈ Split (t ++ "-" ++ ToLower env.unicodeToLower p.name ++ ".yaml") '/',
      e ≠ "" ∧ e ≠ "." ∧ e ≠ "..")
    (hdir : pathClean env.providersPath = env.providersPath)
    (h1 : env.providersPath ≠ ".") (h2 : env.providersPath ≠ "/")
    (hw : p.writeProvider env objs w = (w', none)) :
    (w'.files (env.providersPath ++ "/" ++ t ++ "-" ++ ToLower env.unicodeToLower p.name
        ++ ".yaml")).isSome = true
    ∧ ∀ q, q ≠ env.providersPath ++ "/" ++ t ++ "-" ++ ToLower env.unicodeToLower p.name
          ++ ".yaml" →
        w'.files q = w.files q := by
  have hascii : ∀ s : String, (∀ c ∈ s.toList, c.toNat < 128) →
      ToLower env.unicodeToLower s = ToLower Char.toLower s :=
    ToLower_ascii env.unicodeToLower hlower
  have hpath : p.artifactPath env
      = env.providersPath ++ "/" ++ t ++ "-" ++ ToLower env.unicodeToLower p.name ++ ".yaml" := by
    simp only [List.mem_cons, List.mem_singleton, List.not_mem_nil, or_false, Prod.mk.injEq] at ht
    rcases ht with ⟨e1, e2⟩ | ⟨e1, e2⟩ | ⟨e1, e2⟩ | ⟨e1, e2⟩ <;>
      exact artifactPath_eq env p t
        (by rw [e1, e2, hascii _ (by decide)]; decide)
        (by rw [e2, hascii _ (by decide)]; decide)
        (by rw [hascii _ (by decide)]; decide)
        (by rw [hascii _ (by decide)]; decide)
        helems hdir h1 h2
  obtain ⟨hw1, hw2⟩ := writeProvider_files hw
  rw [hpath] at hw1 hw2
  exact ⟨hw1 rfl, hw2⟩

theorem sampleToLower_ascii (c : Char) (h : c.toNat < 128) : sampleToLower c = c.toLower := by
  unfold sampleToLower
  rw [if_neg (by omega), if_neg (by omega)]

/-- Witness of C11: the provider (CoreProvider, "cluster-api") is written to
`core-cluster-api.yaml` in the output directory; the infrastructure provider
named "AWS/eu" to `infrastructure-aws/eu.yaml`; the core provider named "École"
to `core-école.yaml`. -/
theorem artifact_path_witness :
    (((clusterAPIProvider.writeProvider (sampleEnv nothingMissing) [sampleService]
        World.empty).1.files "/repo/assets/providers/core-cluster-api.yaml").isSome = true
      ∧ ∀ q, q ≠ "/repo/assets/providers/core-cluster-api.yaml" →
        (clusterAPIProvider.writeProvider (sampleEnv nothingMissing) [sampleService]
          World.empty).1.files q = World.empty.files q)
    ∧ (((regionalProvider.writeProvider (sampleEnv nothingMissing) [sampleService]
        World.empty).1.files "/repo/assets/providers/infrastructure-aws/eu.yaml").isSome = true
      ∧ ∀ q, q ≠ "/repo/assets/providers/infrastructure-aws/eu.yaml" →
        (regionalProvider.writeProvider (sampleEnv nothingMissing) [sampleService]
          World.empty).1.files q = World.empty.files q)
    ∧ (((accentedProvider.writeProvider (sampleEnv nothingMissing) [sampleService]
        World.empty).1.files "/repo/assets/providers/core-école.yaml").isSome = true
      ∧ ∀ q, q ≠ "/repo/assets/providers/core-école.yaml" →
        (accentedProvider.writeProvider (sampleEnv nothingMissing) [sampleService]
          World.empty).1.files q = World.empty.files q) :=
  ⟨artifact_path (sampleEnv nothingMissing) clusterAPIProvider [sampleService] World.empty
      (clusterAPIProvider.writeProvider (sampleEnv nothingMissing) [sampleService] World.empty).1
      "core" (by decide) sampleToLower_ascii (by decide) (by decide) (by decide) (by decide) rfl,
    artifact_path (sampleEnv nothingMissing) regionalProvider [sampleService] World.empty
      (regionalProvider.writeProvider (sampleEnv nothingMissing) [sampleService] World.empty).1
      "infrastructure" (by decide) sampleToLower_ascii (by decide) (by decide) (by decide)
      (by decide) rfl,
    artifact_path (sampleEnv nothingMissing) accentedProvider [sampleService] World.empty
      (accentedProvider.writeProvider (sampleEnv nothingMissing) [sampleService] World.empty).1
      "core" (by decide) sampleToLower_ascii (by decide) (by decide) (by decide) (by decide) rfl⟩

/-- Counterexample to C11 as stated: for the core provider named "a/../b",
`path.Join` cleans the `..` element away: the file written is `b.yaml` in the
output directory, and there is no file `core-a/../b.yaml`. -/
theorem artifact_path_counterexample :
    dottedProvider.ptype = CoreProviderType
    ∧ ToLower (sampleEnv nothingMissing).unicodeToLower dottedProvider.name = "a/../b"
    ∧ (dottedProvider.writeProvider (sampleEnv nothingMissing) [sampleService] World.empty).2
        = none
    ∧ (dottedProvider.writeProvider (sampleEnv nothingMissing) [sampleService]
        World.empty).1.files "/repo/assets/providers/core-a/../b.yaml" = none
    ∧ (dottedProvider.writeProvider (sampleEnv nothingMissing) [sampleService]
        World.empty).1.files "/repo/assets/providers/b.yaml" = some "v1.0.0:2" := by
  decide

end ImportAssets

namespace Controllers

open ImportAssets

theorem isInfrastructureCluster_true (name : String) (obj : RuntimeObject) :
    isInfrastructureCluster name obj = .ok true
      ↔ ∃ objectMeta, obj = .infrastructure (some objectMeta) ∧ objectMeta.Name = name := by
  cases obj with
  | infrastructure ptr =>
    cases ptr with
    | none => simp [isInfrastructureCluster, deref]
    | some objectMeta => simp [isInfrastructureCluster, deref]
  | nilObject => simp [isInfrastructureCluster]
  | featureGate ptr => simp [isInfrastructureCluster]
  | other typeName ptr => simp [isInfrastructureCluster]

theorem isFeatureGateCluster_true (name : String) (obj : RuntimeObject) :
    isFeatureGateCluster name obj = .ok true
      ↔ ∃ objectMeta, obj = .featureGate (some objectMeta) ∧ objectMeta.Name = name := by
  cases obj with
  | featureGate ptr =>
    cases ptr with
    | none => simp [isFeatureGateCluster, deref]
    | some objectMeta => simp [isFeatureGateCluster, deref]
  | nilObject => simp [isFeatureGateCluster]
  | infrastructure ptr => simp [isFeatureGateCluster]
  | other typeName ptr => simp [isFeatureGateCluster]

/-- C14 (event predicates): for each of the four event types,
`infrastructurePredicates` returns true exactly when the object of the event
(the new object, for an update) is an Infrastructure whose name is
`infrastructureResourceName`, and `featureGatePredicates` returns true exactly
when it is a FeatureGate whose name is `externalFeatureGateName`; for an update
the result is the same whatever the old object. -/
theorem event_predicates (infrastructureResourceName externalFeatureGateName : String)
    (obj old old' : RuntimeObject) (unknown : Bool) :
    ((infrastructurePredicates infrastructureResourceName).CreateFunc ⟨obj⟩ = .ok true
      ↔ ∃ objectMeta, obj = .infrastructure (some objectMeta)
          ∧ objectMeta.Name = infrastructureResourceName)
    ∧ ((infrastructurePredicates infrastructureResourceName).UpdateFunc ⟨old, obj⟩ = .ok true
      ↔ ∃ objectMeta, obj = .infrastructure (some objectMeta)
          ∧ objectMeta.Name = infrastructureResourceName)
    ∧ ((infrastructurePredicates infrastructureResourceName).GenericFunc ⟨obj⟩ = .ok true
      ↔ ∃ objectMeta, obj = .infrastructure (some objectMeta)
          ∧ objectMeta.Name = infrastructureResourceName)
    ∧ ((infrastructurePredicates infrastructureResourceName).DeleteFunc ⟨obj, unknown⟩ = .ok true
      ↔ ∃ objectMeta, obj = .infrastructure (some objectMeta)
          ∧ objectMeta.Name = infrastructureResourceName)
    ∧ ((featureGatePredicates externalFeatureGateName).CreateFunc ⟨obj⟩ = .ok true
      ↔ ∃ objectMeta, obj = .featureGate (some objectMeta)
          ∧ objectMeta.Name = externalFeatureGateName)
    ∧ ((featureGatePredicates externalFeatureGateName).UpdateFunc ⟨old, obj⟩ = .ok true
      ↔ ∃ objectMeta, obj = .featureGate (some objectMeta)
          ∧ objectMeta.Name = externalFeatureGateName)
    ∧ ((featureGatePredicates externalFeatureGateName).GenericFunc ⟨obj⟩ = .ok true
      ↔ ∃ objectMeta, obj = .featureGate (some objectMeta)
          ∧ objectMeta.Name = externalFeatureGateName)
    ∧ ((featureGatePredicates externalFeatureGateName).DeleteFunc ⟨obj, unknown⟩ = .ok true
      ↔ ∃ objectMeta, obj = .featureGate (some objectMeta)
          ∧ objectMeta.Name = externalFeatureGateName)
    ∧ (infrastructurePredicates infrastructureResourceName).UpdateFunc ⟨old, obj⟩
        = (infrastructurePredicates infrastructureResourceName).UpdateFunc ⟨old', obj⟩
    ∧ (featureGatePredicates externalFeatureGateName).UpdateFunc ⟨old, obj⟩
        = (featureGatePredicates externalFeatureGateName).UpdateFunc ⟨old', obj⟩ :=
  ⟨isInfrastructureCluster_true _ _, isInfrastructureCluster_true _ _,
    isInfrastructureCluster_true _ _, isInfrastructureCluster_true _ _,
    isFeatureGateCluster_true _ _, isFeatureGateCluster_true _ _,
    isFeatureGateCluster_true _ _, isFeatureGateCluster_true _ _, rfl, rfl⟩

end Controllers
